import Mathlib

/-!
# Verification of the spec2tools core (OpenAPI → tools compiler and executor)

Shallow embedding of `packages/core/src`: the OpenAPI schema translator
(`schemaToZod`, `resolveRef`), the operation parser (`parseOperations` with
`buildParametersSchema` / `buildRequestBodySchema`), the auth-configuration
resolution (`extractOperationAuthConfig`), the auth manager's header/query
rendering, the tool executor's request assembly and error normalisation, and
the spec loader's format dispatch.

JavaScript objects are modelled as association lists with JS-assignment
semantics (`setKey`: replace in place, else append), JS `Set`s as duplicate-free
lists in insertion order (`addSet`), and thrown `UnsupportedSchemaError`s as an
`Except` error channel.  The translator in the source is not structurally
terminating (see the `$ref`-cycle analysis below), so it is embedded with a
fuel parameter: `none` means the computation did not finish within the given
fuel, `some (.error e)` models a thrown error, `some (.ok v)` a return.
-/

namespace Spec2Tools

/-! ## Kernel-computable string primitives

`String.startsWith`/`endsWith`/`drop`/`trim` from core are implemented over
byte positions and do not reduce inside the kernel, so the embedding uses
these `List Char` equivalents (extensionally the same functions). -/

def strStartsWith (s pfx : String) : Bool := pfx.toList.isPrefixOf s.toList

def strEndsWith (s sfx : String) : Bool := sfx.toList.isSuffixOf s.toList

def strDrop (s : String) (n : Nat) : String := String.mk (s.toList.drop n)

/-- Whitespace as `String.prototype.trim` strips it (the common ASCII
whitespace characters; exotic Unicode space classes are out of scope). -/
def isWhitespaceChar (c : Char) : Bool :=
  c = ' ' || c = '\t' || c = '\n' || c = '\r' || c = '\x0c' || c = '\x0b'

def jsTrim (s : String) : String :=
  String.mk (((s.toList.dropWhile isWhitespaceChar).reverse.dropWhile
    isWhitespaceChar).reverse)

/-! ## Association-list and set helpers (JS object / Set semantics) -/

/-- JS property read `o[k]`: first binding wins (keys are unique in real JS
objects, but the model tolerates duplicates). -/
def lookup {α : Type} : List (String × α) → String → Option α
  | [], _ => none
  | (k', v) :: rest, k => if k' = k then some v else lookup rest k

/-- JS property write `o[k] = v`: replace the existing binding in place,
otherwise append (insertion order preserved). -/
def setKey {α : Type} : List (String × α) → String → α → List (String × α)
  | [], k, v => [(k, v)]
  | (k', v') :: rest, k, v =>
    if k' = k then (k, v) :: rest else (k', v') :: setKey rest k v

/-- Keys of a JS object, in order. -/
def keys {α : Type} (l : List (String × α)) : List String := l.map Prod.fst

/-- JS `Set.prototype.add`: no-op when present, else append. -/
def addSet (l : List String) (x : String) : List String :=
  if x ∈ l then l else l ++ [x]

/-! ## OpenAPI data model (`types.ts`) -/

/-- `SchemaObject` from `types.ts`.  Fields kept are exactly those the core
reads: `type`, `format`, `description`, `required`, `properties`, `items`,
`enum`, `anyOf`, `oneOf`, `allOf`, `$ref` (as `ref`).  `Option` tracks
JS `undefined`; the translator only tests the combinator lists for presence
(JS truthiness of an array, which holds even for `[]`). -/
inductive Schema : Type where
  | mk (type : Option String) (format : Option String) (description : Option String)
       (required : Option (List String)) (properties : Option (List (String × Schema)))
       (items : Option Schema) (enum : Option (List String))
       (anyOf : Option (List Schema)) (oneOf : Option (List Schema))
       (allOf : Option (List Schema)) (ref : Option String) : Schema

def Schema.type : Schema → Option String | .mk t _ _ _ _ _ _ _ _ _ _ => t
def Schema.format : Schema → Option String | .mk _ f _ _ _ _ _ _ _ _ _ => f
def Schema.description : Schema → Option String | .mk _ _ d _ _ _ _ _ _ _ _ => d
def Schema.required : Schema → Option (List String) | .mk _ _ _ r _ _ _ _ _ _ _ => r
def Schema.properties : Schema → Option (List (String × Schema)) | .mk _ _ _ _ p _ _ _ _ _ _ => p
def Schema.items : Schema → Option Schema | .mk _ _ _ _ _ i _ _ _ _ _ => i
def Schema.enum : Schema → Option (List String) | .mk _ _ _ _ _ _ e _ _ _ _ => e
def Schema.anyOf : Schema → Option (List Schema) | .mk _ _ _ _ _ _ _ a _ _ _ => a
def Schema.oneOf : Schema → Option (List Schema) | .mk _ _ _ _ _ _ _ _ o _ _ => o
def Schema.allOf : Schema → Option (List Schema) | .mk _ _ _ _ _ _ _ _ _ a _ => a
def Schema.ref : Schema → Option String | .mk _ _ _ _ _ _ _ _ _ _ r => r

structure OAuthCodeFlow where
  authorizationUrl : String
  tokenUrl : String
  scopes : Option (List (String × String))

/-- Only the `authorizationCode` flow is read by `parseSecurityScheme`. -/
structure OAuthFlows where
  authorizationCode : Option OAuthCodeFlow

structure SecurityScheme where
  type : String
  scheme : Option String
  name : Option String
  in_ : Option String
  flows : Option OAuthFlows

structure Components where
  schemas : Option (List (String × Schema))
  securitySchemes : Option (List (String × SecurityScheme))

structure Parameter where
  name : String
  in_ : String
  required : Bool
  description : Option String
  schema : Option Schema

structure MediaType where
  schema : Option Schema

structure RequestBody where
  content : Option (List (String × MediaType))

/-- One security requirement `Record<string, string[]>`. -/
abbrev SecurityRequirement := List (String × List String)

structure Operation where
  operationId : Option String
  summary : Option String
  description : Option String
  parameters : Option (List Parameter)
  requestBody : Option RequestBody
  security : Option (List SecurityRequirement)

structure PathItem where
  get : Option Operation
  post : Option Operation
  put : Option Operation
  patch : Option Operation
  delete : Option Operation
  parameters : Option (List Parameter)

structure OpenAPISpec where
  servers : Option (List String)
  paths : List (String × PathItem)
  components : Option Components
  security : Option (List SecurityRequirement)

/-- `spec.components?.schemas?.[name]`. -/
def OpenAPISpec.componentSchema (spec : OpenAPISpec) (name : String) : Option Schema :=
  match spec.components with
  | none => none
  | some c =>
    match c.schemas with
    | none => none
    | some m => lookup m name

/-- `spec.components?.securitySchemes`. -/
def OpenAPISpec.secSchemes (spec : OpenAPISpec) : Option (List (String × SecurityScheme)) :=
  match spec.components with
  | none => none
  | some c => c.securitySchemes

/-! ## The runtime validator model (Zod values as built by the translator) -/

/-- The Zod schema values the translator can build: `z.string()`, `z.enum`,
`z.number()`, `z.boolean()`, `z.array`, `z.object`, `.optional()` and
`.describe(...)` wrappers. -/
inductive Zod : Type where
  | string : Zod
  | enum (options : List String) : Zod
  | number : Zod
  | boolean : Zod
  | array (item : Zod) : Zod
  | object (shape : List (String × Zod)) : Zod
  | optional (inner : Zod) : Zod
  | describe (inner : Zod) (description : String) : Zod

/-- `UnsupportedSchemaError(path, reason)` — the only error the translator
throws (`errors.ts`). -/
structure SchemaError where
  path : String
  reason : String

/-- `.describe(description)` applied when the schema node carries one. -/
def describeIf (d : Option String) (z : Zod) : Zod :=
  match d with
  | some s => Zod.describe z s
  | none => z

/-! ## `$ref` resolution and schema translation (`openapi-parser.ts`)

The source functions are recursive with no structural measure (and, as proved
below, genuinely non-terminating on some inputs), so both carry a fuel
parameter.  `none` = the computation did not finish within the fuel. -/

def refBase : String := "#/components/schemas/"

/-- `resolveRef(ref, spec, visited)`: cycle check, visited-set extension, form
check, component lookup, then recursive resolution while the resolved schema
itself carries a `$ref`. -/
def resolveRef : Nat → String → OpenAPISpec → List String →
    Option (Except SchemaError Schema)
  | 0, _, _, _ => none
  | fuel + 1, ref, spec, visited =>
    if ref ∈ visited then
      some (Except.error ⟨ref, "Circular $ref detected"⟩)
    else
      let visited' := ref :: visited
      if ¬ strStartsWith ref refBase then
        some (Except.error ⟨ref, "Only #/components/schemas/ $refs are supported"⟩)
      else
        let schemaName := strDrop ref refBase.length
        match spec.componentSchema schemaName with
        | none =>
          some (Except.error
            ⟨ref, "Schema \"" ++ schemaName ++ "\" not found in components"⟩)
        | some schema =>
          match schema.ref with
          | some r => resolveRef fuel r spec visited'
          | none => some (Except.ok schema)

/-- The `for (const [propName, propSchema] of Object.entries(properties))` loop
of the object branch of `schemaToZod`, abstracted over the recursive call
(`tr propSchema propName` translates one property). -/
def translateProps (tr : Schema → String → Option (Except SchemaError Zod))
    (required : List String) :
    List (String × Schema) → List (String × Zod) →
    Option (Except SchemaError (List (String × Zod)))
  | [], acc => some (Except.ok acc)
  | (propName, propSchema) :: rest, acc =>
    match tr propSchema propName with
    | none => none
    | some (Except.error e) => some (Except.error e)
    | some (Except.ok z) =>
      let z' := if required.contains propName then z else Zod.optional z
      translateProps tr required rest (setKey acc propName z')

/-- `schemaToZod(schema, path, spec, depth, visited)`.  Branch order follows
the source: `$ref` resolution first, then `anyOf`/`oneOf`/`allOf` rejection,
the array branch, the object branch with its depth cut, then the primitive
switch with a permissive-string default.  Note that the source never adds to
`visited` here: it passes a copy to `resolveRef` and threads the unchanged set
through its own recursive calls. -/
def schemaToZod : Nat → Schema → String → OpenAPISpec → Nat → List String →
    Option (Except SchemaError Zod)
  | 0, _, _, _, _, _ => none
  | fuel + 1, schema, path, spec, depth, visited =>
    match schema.ref with
    | some r =>
      match resolveRef (fuel + 1) r spec visited with
      | none => none
      | some (Except.error e) => some (Except.error e)
      | some (Except.ok resolvedSchema) =>
        schemaToZod fuel resolvedSchema path spec depth visited
    | none =>
      if schema.anyOf.isSome then
        some (Except.error ⟨path, "anyOf is not supported"⟩)
      else if schema.oneOf.isSome then
        some (Except.error ⟨path, "oneOf is not supported"⟩)
      else if schema.allOf.isSome then
        some (Except.error ⟨path, "allOf is not supported"⟩)
      else if schema.type = some "array" then
        match schema.items with
        | none => some (Except.error ⟨path, "Array without items schema"⟩)
        | some items =>
          if items.type = some "object" then
            some (Except.error ⟨path, "Arrays of objects are not supported"⟩)
          else
            match schemaToZod fuel items (path ++ ".items") spec depth visited with
            | none => none
            | some (Except.error e) => some (Except.error e)
            | some (Except.ok itemZ) =>
              some (Except.ok (describeIf schema.description (Zod.array itemZ)))
      else if schema.type = some "object" ∨ schema.properties.isSome then
        if depth > 1 then
          some (Except.error ⟨path, "Nested objects beyond 1 level are not supported"⟩)
        else
          let properties := schema.properties.getD []
          let required := schema.required.getD []
          match translateProps
              (fun propSchema propName =>
                schemaToZod fuel propSchema (path ++ "." ++ propName) spec
                  (depth + 1) visited)
              required properties [] with
          | none => none
          | some (Except.error e) => some (Except.error e)
          | some (Except.ok shape) =>
            some (Except.ok (describeIf schema.description (Zod.object shape)))
      else
        match schema.type with
        | some "string" =>
          let strSchema := match schema.enum with
            | some options => Zod.enum options
            | none => Zod.string
          some (Except.ok (describeIf schema.description strSchema))
        | some "number" =>
          some (Except.ok (describeIf schema.description Zod.number))
        | some "integer" =>
          some (Except.ok (describeIf schema.description Zod.number))
        | some "boolean" =>
          some (Except.ok (describeIf schema.description Zod.boolean))
        | _ => some (Except.ok Zod.string)

/-! ## Parameter and request-body schema building (`openapi-parser.ts`) -/

/-- The body of the `for (const param of parameters)` loop in
`buildParametersSchema`, for one `path`/`query` parameter: translate the
schema (or default to `z.string()`), attach the description, make it optional
when not required. -/
def translateParam (fuel : Nat) (spec : OpenAPISpec) (operationId : String)
    (param : Parameter) : Option (Except SchemaError Zod) :=
  match
    (match param.schema with
     | some s =>
       schemaToZod fuel s (operationId ++ ".parameters." ++ param.name) spec 0 []
     | none => some (Except.ok Zod.string)) with
  | none => none
  | some (Except.error e) => some (Except.error e)
  | some (Except.ok z) =>
    let z := describeIf param.description z
    let z := if param.required then z else Zod.optional z
    some (Except.ok z)

/-- Does `buildParametersSchema` translate this parameter at all?  `header`
and `cookie` locations are skipped. -/
def relevantIn (param : Parameter) : Bool :=
  param.in_ == "path" || param.in_ == "query"

/-- Accumulator of `buildParametersSchema`: the shape under construction plus
the two placement sets. -/
structure ParamsAcc where
  shape : List (String × Zod)
  pathParams : List String
  queryParams : List String

def buildParametersSchemaAux (fuel : Nat) (spec : OpenAPISpec)
    (operationId : String) :
    List Parameter → ParamsAcc → Option (Except SchemaError ParamsAcc)
  | [], acc => some (Except.ok acc)
  | param :: rest, acc =>
    if ¬ relevantIn param then
      buildParametersSchemaAux fuel spec operationId rest acc
    else
      match translateParam fuel spec operationId param with
      | none => none
      | some (Except.error e) => some (Except.error e)
      | some (Except.ok z) =>
        let acc' : ParamsAcc :=
          { shape := setKey acc.shape param.name z
            pathParams :=
              if param.in_ == "path" then addSet acc.pathParams param.name
              else acc.pathParams
            queryParams :=
              if param.in_ == "query" then addSet acc.queryParams param.name
              else acc.queryParams }
        buildParametersSchemaAux fuel spec operationId rest acc'

/-- `buildParametersSchema(parameters, operationId, spec)`. -/
def buildParametersSchema (fuel : Nat) (parameters : List Parameter)
    (operationId : String) (spec : OpenAPISpec) :
    Option (Except SchemaError ParamsAcc) :=
  buildParametersSchemaAux fuel spec operationId parameters ⟨[], [], []⟩

/-- Accumulator/result of `buildRequestBodySchema`. -/
structure BodyAcc where
  shape : List (String × Zod)
  bodyParams : List String

/-- The `for (const [propName, propSchema] of Object.entries(properties))`
loop of `buildRequestBodySchema`: per property a dedicated file-upload check,
then translation at depth 1 with a fresh visited set. -/
def buildBodyPropsAux (fuel : Nat) (spec : OpenAPISpec) (operationId : String)
    (required : List String) :
    List (String × Schema) → BodyAcc → Option (Except SchemaError BodyAcc)
  | [], acc => some (Except.ok acc)
  | (propName, propSchema) :: rest, acc =>
    if propSchema.type = some "string" ∧ propSchema.format = some "binary" then
      some (Except.error
        ⟨operationId ++ ".requestBody." ++ propName, "File uploads are not supported"⟩)
    else
      match schemaToZod fuel propSchema
          (operationId ++ ".requestBody." ++ propName) spec 1 [] with
      | none => none
      | some (Except.error e) => some (Except.error e)
      | some (Except.ok z) =>
        let z' := if required.contains propName then z else Zod.optional z
        buildBodyPropsAux fuel spec operationId required rest
          ⟨setKey acc.shape propName z', addSet acc.bodyParams propName⟩

/-- `buildRequestBodySchema(operation, operationId, spec)`: only the
`application/json` media type is considered; a top-level binary string is a
file upload; a top-level `$ref` is resolved once; object schemas have their
properties flattened into the shape, anything else contributes nothing. -/
def buildRequestBodySchema (fuel : Nat) (operation : Operation)
    (operationId : String) (spec : OpenAPISpec) :
    Option (Except SchemaError BodyAcc) :=
  match operation.requestBody with
  | none => some (Except.ok ⟨[], []⟩)
  | some rb =>
    match rb.content with
    | none => some (Except.ok ⟨[], []⟩)
    | some content =>
      match lookup content "application/json" with
      | none => some (Except.ok ⟨[], []⟩)
      | some jsonContent =>
        match jsonContent.schema with
        | none => some (Except.ok ⟨[], []⟩)
        | some schema =>
          if schema.type = some "string" ∧ schema.format = some "binary" then
            some (Except.error
              ⟨operationId ++ ".requestBody", "File uploads are not supported"⟩)
          else
            match
              (match schema.ref with
               | some r => resolveRef fuel r spec []
               | none => some (Except.ok schema)) with
            | none => none
            | some (Except.error e) => some (Except.error e)
            | some (Except.ok resolvedSchema) =>
              if resolvedSchema.type = some "object" ∨ resolvedSchema.properties.isSome then
                buildBodyPropsAux fuel spec operationId
                  (resolvedSchema.required.getD [])
                  (resolvedSchema.properties.getD []) ⟨[], []⟩
              else
                some (Except.ok ⟨[], []⟩)

/-! ## Auth-configuration extraction (`openapi-parser.ts`) -/

inductive AuthType : Type where
  | oauth2 | apiKey | bearer | basic | none
  deriving DecidableEq, Repr

/-- The resolved `AuthConfig` shape from `types.ts` (one shared record with
optional type-specific fields, exactly as in the source). -/
structure AuthConfig where
  type : AuthType
  authorizationUrl : Option String := Option.none
  tokenUrl : Option String := Option.none
  scopes : Option (List String) := Option.none
  apiKeyHeader : Option String := Option.none
  apiKeyIn : Option String := Option.none
  deriving DecidableEq, Repr

def noAuth : AuthConfig := { type := AuthType.none }

/-- `parseSecurityScheme(scheme, scopes)`.  The oauth2 branch throws
`UnsupportedSchemaError` when no authorization-code flow is declared. -/
def parseSecurityScheme (scheme : SecurityScheme) (scopes : List String) :
    Except SchemaError AuthConfig :=
  if scheme.type = "oauth2" then
    match (scheme.flows.bind OAuthFlows.authorizationCode) with
    | Option.none =>
      Except.error ⟨"securitySchemes", "Only OAuth2 authorization code flow is supported"⟩
    | some flow =>
      Except.ok { type := AuthType.oauth2
                  authorizationUrl := some flow.authorizationUrl
                  tokenUrl := some flow.tokenUrl
                  scopes := some scopes }
  else if scheme.type = "apiKey" then
    Except.ok { type := AuthType.apiKey
                apiKeyHeader := scheme.name
                apiKeyIn := scheme.in_ }
  else if scheme.type = "http" ∧ scheme.scheme = some "bearer" then
    Except.ok { type := AuthType.bearer }
  else if scheme.type = "http" ∧ scheme.scheme = some "basic" then
    Except.ok { type := AuthType.basic }
  else
    Except.ok noAuth

/-- `extractAuthConfigFromSecurity(security, securitySchemes)`. -/
def extractAuthConfigFromSecurity (security : Option (List SecurityRequirement))
    (securitySchemes : Option (List (String × SecurityScheme))) :
    Except SchemaError AuthConfig :=
  match security with
  | Option.none =>
    -- `security` undefined: the first guard does not fire, the second does.
    Except.ok noAuth
  | some reqs =>
    if reqs.length = 0 then Except.ok noAuth
    else
      match securitySchemes with
      | Option.none => Except.ok noAuth
      | some schemes =>
        match reqs.head? with
        | Option.none => Except.ok noAuth
        | some securityReq =>
          -- `Object.keys(securityReq)[0]` and `securityReq[schemeName]`
          match securityReq.head? with
          | Option.none => Except.ok noAuth
          | some (schemeName, scopes) =>
            match lookup schemes schemeName with
            | Option.none => Except.ok noAuth
            | some scheme => parseSecurityScheme scheme scopes

/-- `extractAuthConfig(spec)`. -/
def extractAuthConfig (spec : OpenAPISpec) : Except SchemaError AuthConfig :=
  extractAuthConfigFromSecurity spec.security spec.secSchemes

/-- `extractOperationAuthConfig(spec, operation)`: operation-level `security`
(if the field is present at all, empty list included) wins over the global
one. -/
def extractOperationAuthConfig (spec : OpenAPISpec) (operation : Operation) :
    Except SchemaError AuthConfig :=
  match operation.security with
  | some sec => extractAuthConfigFromSecurity (some sec) spec.secSchemes
  | Option.none => extractAuthConfig spec

/-! ## Tool generation (`parseOperations`, `generateToolName`) -/

inductive HttpMethod : Type where
  | GET | POST | PUT | PATCH | DELETE
  deriving DecidableEq, Repr

/-- `method.toLowerCase()` for the five supported methods. -/
def HttpMethod.lower : HttpMethod → String
  | .GET => "get"
  | .POST => "post"
  | .PUT => "put"
  | .PATCH => "patch"
  | .DELETE => "delete"

def HTTP_METHODS : List HttpMethod :=
  [HttpMethod.GET, HttpMethod.POST, HttpMethod.PUT, HttpMethod.PATCH, HttpMethod.DELETE]

/-- The method literal itself (`'GET'` …), as interpolated into strings. -/
def HttpMethod.upper : HttpMethod → String
  | .GET => "GET"
  | .POST => "POST"
  | .PUT => "PUT"
  | .PATCH => "PATCH"
  | .DELETE => "DELETE"

/-- JS `a || b` on an optional string: `undefined` and `""` are falsy. -/
def jsOrString (a : Option String) (b : String) : String :=
  match a with
  | some s => if s = "" then b else s
  | Option.none => b

def lbrace : Char := Char.ofNat 123
def rbrace : Char := Char.ofNat 125

/-- `path.replace(/[{}]/g, '').replace(/\//g, '_').replace(/^_/, '')`. -/
def cleanPath (path : String) : String :=
  let replaced := path.toList.filterMap fun c =>
    if c = lbrace ∨ c = rbrace then Option.none
    else if c = '/' then some '_'
    else some c
  match replaced with
  | '_' :: rest => String.mk rest
  | other => String.mk other

/-- `generateToolName(operation, method, path)`. -/
def generateToolName (operation : Operation) (method : HttpMethod)
    (path : String) : String :=
  match operation.operationId with
  | some id => id
  | Option.none => method.lower ++ "_" ++ cleanPath path

/-- The parse-time placement record attached to every tool. -/
structure ParameterMetadata where
  pathParams : List String
  queryParams : List String
  bodyParams : List String

/-- A tool definition (`Omit<Tool, 'execute'>` as produced by the parser, and
the `ToolDefinition` interface consumed by `tool-executor.ts` — there the
`authConfig` and `parameterMetadata` fields are optional).  The `parameters`
field models the shape of the `z.object(combinedShape)` validator. -/
structure ToolDefinition where
  name : String
  description : String
  parameters : List (String × Zod)
  httpMethod : HttpMethod
  path : String
  authConfig : Option AuthConfig
  parameterMetadata : Option ParameterMetadata

/-- `pathItem[method.toLowerCase()]`. -/
def PathItem.operationFor (item : PathItem) : HttpMethod → Option Operation
  | .GET => item.get
  | .POST => item.post
  | .PUT => item.put
  | .PATCH => item.patch
  | .DELETE => item.delete

/-- The body of the method loop of `parseOperations`, for one present
operation: name, concatenated parameters, the two schema builds, the merged
shape (`{...parametersResult.shape, ...bodyResult.shape}` = assign the body
bindings over the parameter bindings), auth resolution and the pushed tool. -/
def parseOneOperation (fuel : Nat) (spec : OpenAPISpec) (path : String)
    (pathParameters : List Parameter) (method : HttpMethod)
    (operation : Operation) : Option (Except SchemaError ToolDefinition) :=
  let operationId := generateToolName operation method path
  let allParameters := pathParameters ++ operation.parameters.getD []
  match buildParametersSchema fuel allParameters operationId spec with
  | Option.none => Option.none
  | some (Except.error e) => some (Except.error e)
  | some (Except.ok parametersResult) =>
    match buildRequestBodySchema fuel operation operationId spec with
    | Option.none => Option.none
    | some (Except.error e) => some (Except.error e)
    | some (Except.ok bodyResult) =>
      let combinedShape :=
        bodyResult.shape.foldl (fun acc kv => setKey acc kv.1 kv.2)
          parametersResult.shape
      match extractOperationAuthConfig spec operation with
      | Except.error e => some (Except.error e)
      | Except.ok authConfig =>
        some (Except.ok
          { name := operationId
            description :=
              jsOrString operation.summary
                (jsOrString operation.description (method.upper ++ " " ++ path))
            parameters := combinedShape
            httpMethod := method
            path := path
            authConfig := some authConfig
            parameterMetadata := some
              { pathParams := parametersResult.pathParams
                queryParams := parametersResult.queryParams
                bodyParams := bodyResult.bodyParams } })

/-- The `for (const method of HTTP_METHODS)` loop of `parseOperations`. -/
def parseMethods (fuel : Nat) (spec : OpenAPISpec) (path : String)
    (item : PathItem) (pathParameters : List Parameter) :
    List HttpMethod → Option (Except SchemaError (List ToolDefinition))
  | [] => some (Except.ok [])
  | method :: rest =>
    match item.operationFor method with
    | Option.none => parseMethods fuel spec path item pathParameters rest
    | some operation =>
      match parseOneOperation fuel spec path pathParameters method operation with
      | Option.none => Option.none
      | some (Except.error e) => some (Except.error e)
      | some (Except.ok tool) =>
        match parseMethods fuel spec path item pathParameters rest with
        | Option.none => Option.none
        | some (Except.error e) => some (Except.error e)
        | some (Except.ok tools) => some (Except.ok (tool :: tools))

/-- The outer `for (const [path, pathItem] of Object.entries(spec.paths))`
loop. -/
def parsePaths (fuel : Nat) (spec : OpenAPISpec) :
    List (String × PathItem) → Option (Except SchemaError (List ToolDefinition))
  | [] => some (Except.ok [])
  | (path, item) :: rest =>
    match parseMethods fuel spec path item (item.parameters.getD []) HTTP_METHODS with
    | Option.none => Option.none
    | some (Except.error e) => some (Except.error e)
    | some (Except.ok tools) =>
      match parsePaths fuel spec rest with
      | Option.none => Option.none
      | some (Except.error e) => some (Except.error e)
      | some (Except.ok more) => some (Except.ok (tools ++ more))

/-- `parseOperations(spec)`: one tool per present path × method. -/
def parseOperations (fuel : Nat) (spec : OpenAPISpec) :
    Option (Except SchemaError (List ToolDefinition)) :=
  parsePaths fuel spec spec.paths

/-! ## Auth manager (`auth-manager.ts`): credential rendering -/

/-- JS truthiness of an optional string field (`undefined` and `""` falsy). -/
def isTruthy : Option String → Bool
  | some s => s ≠ ""
  | Option.none => false

/-- The fields of `AuthManager` read by the pure accessors.  The OAuth
machinery only ever writes the other fields. -/
structure AuthManagerState where
  globalAuthConfig : AuthConfig
  accessToken : Option String
  refreshToken : Option String := Option.none
  clientId : Option String := Option.none
  clientSecret : Option String := Option.none
  codeVerifier : Option String := Option.none

/-- `requiresAuth(authConfig?)`. -/
def requiresAuth (st : AuthManagerState) (authConfig : Option AuthConfig) : Bool :=
  let config := authConfig.getD st.globalAuthConfig
  config.type ≠ AuthType.none

/-- `getAuthHeaders(authConfig?)`: early empty return on a falsy token, then a
switch on the effective config type. -/
def getAuthHeaders (st : AuthManagerState) (authConfig : Option AuthConfig) :
    List (String × String) :=
  if ¬ isTruthy st.accessToken then []
  else
    let token := st.accessToken.getD ""
    let config := authConfig.getD st.globalAuthConfig
    match config.type with
    | AuthType.oauth2 => [("Authorization", "Bearer " ++ token)]
    | AuthType.bearer => [("Authorization", "Bearer " ++ token)]
    | AuthType.basic => [("Authorization", "Basic " ++ token)]
    | AuthType.apiKey =>
      if config.apiKeyIn = some "header" ∧ isTruthy config.apiKeyHeader then
        [(config.apiKeyHeader.getD "", token)]
      else []
    | AuthType.none => []

/-- `getAuthQueryParams(authConfig?)`. -/
def getAuthQueryParams (st : AuthManagerState) (authConfig : Option AuthConfig) :
    List (String × String) :=
  let config := authConfig.getD st.globalAuthConfig
  if config.type = AuthType.apiKey ∧ config.apiKeyIn = some "query" ∧
      isTruthy config.apiKeyHeader ∧ isTruthy st.accessToken then
    [(config.apiKeyHeader.getD "", st.accessToken.getD "")]
  else []

/-! ## Runtime values and JSON serialisation (`tool-executor.ts`) -/

/-- The JS values a validated parameter object can hold. -/
inductive Value : Type where
  | str (s : String)
  | num (n : Int)
  | boolean (b : Bool)
  | null
  | undef
  | arr (elems : List Value)
  | obj (fields : List (String × Value))

/-- `v === undefined`. -/
def Value.isUndef : Value → Bool
  | .undef => true
  | _ => false

/-- `typeof v` is `'string' | 'number' | 'boolean'` (the fallback
`isPrimitive` check; `null` has typeof `'object'`). -/
def isPrimitive : Value → Bool
  | .str _ => true
  | .num _ => true
  | .boolean _ => true
  | _ => false

/-- `String(v)` for the values above. -/
def valueToString : Value → String
  | .str s => s
  | .num n => toString n
  | .boolean b => cond b "true" "false"
  | .null => "null"
  | .undef => "undefined"
  | .arr _ => ""
  | .obj _ => "[object Object]"

def hexDigit (n : Nat) : Char :=
  if n < 10 then Char.ofNat (48 + n) else Char.ofNat (87 + (n - 10))

/-- JSON string escaping as performed by `JSON.stringify` (quotes, backslash,
common control escapes, `\u00XX` for other control characters). -/
def jsonEscapeChar (c : Char) : String :=
  if c = '"' then "\\\""
  else if c = '\\' then "\\\\"
  else if c = '\n' then "\\n"
  else if c = '\r' then "\\r"
  else if c = '\t' then "\\t"
  else if c.toNat < 32 then
    "\\u00" ++ String.mk [hexDigit (c.toNat / 16), hexDigit (c.toNat % 16)]
  else String.singleton c

def jsonQuote (s : String) : String :=
  "\"" ++ String.join (s.toList.map jsonEscapeChar) ++ "\""

mutual
/-- `JSON.stringify(v)`: `none` for `undefined` (omitted in objects, `null`
inside arrays). -/
def jsonStringifyValue : Value → Option String
  | .str s => some (jsonQuote s)
  | .num n => some (toString n)
  | .boolean b => some (cond b "true" "false")
  | .null => some "null"
  | .undef => Option.none
  | .arr elems => some ("[" ++ String.intercalate "," (jsonStringifyElems elems) ++ "]")
  | .obj fields =>
    some ("\x7b" ++ String.intercalate "," (jsonStringifyFields fields) ++ "\x7d")

def jsonStringifyElems : List Value → List String
  | [] => []
  | v :: rest =>
    ((jsonStringifyValue v).getD "null") :: jsonStringifyElems rest

def jsonStringifyFields : List (String × Value) → List String
  | [] => []
  | (k, v) :: rest =>
    match jsonStringifyValue v with
    | Option.none => jsonStringifyFields rest
    | some s => (jsonQuote k ++ ":" ++ s) :: jsonStringifyFields rest
end

/-- `JSON.stringify(bodyParams)` for the body object assembled by the
executor. -/
def jsonStringifyObject (fields : List (String × Value)) : String :=
  "\x7b" ++ String.intercalate "," (jsonStringifyFields fields) ++ "\x7d"

/-! ## URL assembly (`tool-executor.ts`: `buildUrl`, `URL.searchParams`) -/

/-- A `\w` regex character: `[A-Za-z0-9_]`. -/
def isWordChar (c : Char) : Bool :=
  c.isAlpha || c.isDigit || c = '_'

/-- `encodeURIComponent`: unreserved bytes pass through, everything else is
percent-encoded byte-wise over the UTF-8 encoding. -/
def encodeURIComponent (s : String) : String :=
  String.join (s.toUTF8.toList.map fun b =>
    let n := b.toNat
    if (65 ≤ n ∧ n ≤ 90) ∨ (97 ≤ n ∧ n ≤ 122) ∨ (48 ≤ n ∧ n ≤ 57) ∨
        n ∈ [45, 95, 46, 33, 126, 42, 39, 40, 41] then
      String.singleton (Char.ofNat n)
    else
      "%" ++ String.mk [hexDigit (n / 16), hexDigit (n % 16)] |>.toUpper)

/-- The `while ((match = pathParamRegex.exec(path)) !== null)` loop of
`buildUrl`: substitute every `{name}` placeholder whose parameter is present
and defined, URL-encoding the stringified value; unresolved placeholders stay
literal.  The scan consumes at least one character per step; the fuel
argument (instantiated with the path length) only makes the recursion
structural and is never exhausted. -/
def substPathParams (params : List (String × Value)) : Nat → List Char → String
  | _, [] => ""
  | 0, cs => String.mk cs
  | fuel + 1, c :: cs =>
    if c = lbrace then
      let nameChars := cs.takeWhile isWordChar
      match cs.drop nameChars.length with
      | [] => String.mk (c :: cs)
      | r :: rs =>
        if nameChars ≠ [] ∧ r = rbrace then
          (match lookup params (String.mk nameChars) with
           | some v =>
             if ¬ v.isUndef then encodeURIComponent (valueToString v)
             else String.mk (c :: nameChars ++ [rbrace])
           | Option.none => String.mk (c :: nameChars ++ [rbrace])) ++
            substPathParams params fuel rs
        else String.singleton c ++ substPathParams params fuel cs
    else String.singleton c ++ substPathParams params fuel cs

/-- `buildUrl(baseUrl, path, params)`. -/
def buildUrl (baseUrl path : String) (params : List (String × Value)) : String :=
  baseUrl ++ substPathParams params path.toList.length path.toList

/-- The parsed form of `new URL(url)` as far as the executor uses it: the part
before the query string, plus the search parameters. -/
structure UrlObj where
  base : String
  searchParams : List (String × String)

def splitOnChar (sep : Char) (s : String) : List String :=
  (s.toList.splitOn sep).map String.mk

/-- `new URL(url)` (query-string part only; percent-decoding of pre-existing
query entries is not modelled — the executor builds these URLs itself from a
query-free base). -/
def parseUrl (url : String) : UrlObj :=
  match url.toList.splitOn '?' with
  | [] => ⟨url, []⟩
  | [_] => ⟨url, []⟩
  | base :: rest =>
    let queryStr := String.mk ((rest.map (fun l => l ++ ['?'])).flatten.dropLast)
    ⟨String.mk base,
      (splitOnChar '&' queryStr).filterMap fun kv =>
        match kv.toList.splitOn '=' with
        | [] => Option.none
        | [k] => some (String.mk k, "")
        | k :: v :: _ => some (String.mk k, String.mk v)⟩

/-- `application/x-www-form-urlencoded` serialisation of one component as
`URLSearchParams.toString` performs it (space becomes `+`). -/
def formUrlEncode (s : String) : String :=
  String.join (s.toUTF8.toList.map fun b =>
    let n := b.toNat
    if (65 ≤ n ∧ n ≤ 90) ∨ (97 ≤ n ∧ n ≤ 122) ∨ (48 ≤ n ∧ n ≤ 57) ∨
        n ∈ [42, 45, 46, 95] then
      String.singleton (Char.ofNat n)
    else if n = 32 then "+"
    else
      "%" ++ String.mk [hexDigit (n / 16), hexDigit (n % 16)] |>.toUpper)

/-- `urlObj.toString()`. -/
def UrlObj.render (u : UrlObj) : String :=
  if u.searchParams = [] then u.base
  else
    u.base ++ "?" ++
      String.intercalate "&"
        (u.searchParams.map fun kv => formUrlEncode kv.1 ++ "=" ++ formUrlEncode kv.2)

/-! ## Parameter separation and request assembly (`tool-executor.ts`) -/

/-- The three buckets produced by `separateParams`. -/
structure SeparatedParams where
  pathParams : List (String × Value)
  queryParams : List (String × Value)
  bodyParams : List (String × Value)

/-- `extractPathParamNames(params)`: the fallback always returns the empty
set. -/
def extractPathParamNames (_params : List (String × Value)) : List String := []

/-- One iteration of `separateParams`' metadata loop: the if/else chain with
path > query > body precedence and a body default for fields absent from all
three sets. -/
def separateStep (m : ParameterMetadata) (acc : SeparatedParams)
    (kv : String × Value) : SeparatedParams :=
  if m.pathParams.contains kv.1 then
    { acc with pathParams := setKey acc.pathParams kv.1 kv.2 }
  else if m.queryParams.contains kv.1 then
    { acc with queryParams := setKey acc.queryParams kv.1 kv.2 }
  else if m.bodyParams.contains kv.1 then
    { acc with bodyParams := setKey acc.bodyParams kv.1 kv.2 }
  else
    { acc with bodyParams := setKey acc.bodyParams kv.1 kv.2 }

/-- One iteration of the legacy no-metadata fallback loop (value-shape
sniffing). -/
def separateFallbackStep (pathParamNames : List String) (acc : SeparatedParams)
    (kv : String × Value) : SeparatedParams :=
  if pathParamNames.contains kv.1 then
    { acc with pathParams := setKey acc.pathParams kv.1 kv.2 }
  else if isPrimitive kv.2 then
    { acc with queryParams := setKey acc.queryParams kv.1 kv.2 }
  else
    { acc with bodyParams := setKey acc.bodyParams kv.1 kv.2 }

/-- `separateParams(params, metadata)`. -/
def separateParams (params : List (String × Value))
    (metadata : Option ParameterMetadata) : SeparatedParams :=
  match metadata with
  | some m => params.foldl (separateStep m) ⟨[], [], []⟩
  | Option.none =>
    params.foldl (separateFallbackStep (extractPathParamNames params)) ⟨[], [], []⟩

/-- The outgoing request as assembled by the executor immediately before
`fetch(url, fetchOptions)`. -/
structure RequestData where
  method : HttpMethod
  url : String
  headers : List (String × String)
  body : Option String

/-- Everything `createExecutor`'s happy path does between successful parameter
validation and the `fetch` call: path substitution, query-parameter
injection, auth injection, and conditional JSON body serialisation. -/
def prepareRequest (tool : ToolDefinition) (baseUrl : String)
    (st : AuthManagerState) (validatedParams : List (String × Value)) :
    RequestData :=
  let url := buildUrl baseUrl tool.path validatedParams
  let separated := separateParams validatedParams tool.parameterMetadata
  let urlObj := parseUrl url
  let urlObj := separated.queryParams.foldl
    (fun (u : UrlObj) kv =>
      if ¬ kv.2.isUndef then
        { u with searchParams := setKey u.searchParams kv.1 (valueToString kv.2) }
      else u)
    urlObj
  let toolRequiresAuth := requiresAuth st tool.authConfig
  let urlObj :=
    if toolRequiresAuth then
      (getAuthQueryParams st tool.authConfig).foldl
        (fun (u : UrlObj) kv =>
          { u with searchParams := setKey u.searchParams kv.1 kv.2 })
        urlObj
    else urlObj
  let finalUrl := urlObj.render
  let headers := if toolRequiresAuth then getAuthHeaders st tool.authConfig else []
  let hasBody :=
    [HttpMethod.POST, HttpMethod.PUT, HttpMethod.PATCH].contains tool.httpMethod &&
      !separated.bodyParams.isEmpty
  let headers :=
    if hasBody then setKey headers "Content-Type" "application/json" else headers
  let body := if hasBody then some (jsonStringifyObject separated.bodyParams) else Option.none
  ⟨tool.httpMethod, finalUrl, headers, body⟩

/-! ## Tool execution and error normalisation (`tool-executor.ts`) -/

/-- What the executor parsed out of the HTTP response. -/
inductive ResponseData : Type where
  | jsonData (v : Value)
  | textData (s : String)

/-- The response as the executor observes it; `jsonResult` is the outcome of
`response.json()` (which itself may throw), `textResult` of
`response.text()`. -/
structure HttpResponse where
  ok : Bool
  status : Nat
  statusText : String
  contentType : Option String
  jsonResult : Except String Value
  textResult : String

/-- The environment's behaviour at the `fetch` call: the promise either
rejects (a transport error) or resolves to a response. -/
inductive FetchOutcome : Type where
  | networkError (msg : String)
  | success (r : HttpResponse)

/-- Substring test used for `contentType.includes('application/json')`. -/
def containsSubstr (s sub : String) : Bool :=
  (List.range (s.length + 1)).any fun i => strStartsWith (strDrop s i) sub

/-- The status-keyed hint lines appended to the non-2xx error message. -/
def statusHint (status : Nat) : List String :=
  if status = 401 then ["Authentication failed. Check your API key/token."]
  else if status = 403 then ["Access forbidden. Verify your permissions."]
  else if status = 404 then ["Resource not found."]
  else if status = 429 then ["Rate limit exceeded. Try again later."]
  else if status ≥ 500 then ["Server error. The API service may be experiencing issues."]
  else []

/-- The payload as rendered into the error message (`JSON.stringify(data,
null, 2)` for JSON payloads — the two-space indentation of the pretty-printer
is not modelled, the payload itself is). -/
def responseDisplay : ResponseData → String
  | .textData s => s
  | .jsonData v => (jsonStringifyValue v).getD "undefined"

/-- The `errorDetails` message built for a non-2xx response. -/
def httpErrorMessage (method : HttpMethod) (url : String) (r : HttpResponse)
    (data : ResponseData) : String :=
  String.intercalate "\n"
    (["HTTP " ++ toString r.status ++ " " ++ r.statusText,
      "URL: " ++ method.upper ++ " " ++ url,
      "Response: " ++ responseDisplay data] ++ statusHint r.status)

/-- The error kinds of `errors.ts`, plus `plainError` for a bare
`new Error(...)` that is none of the four named kinds. -/
inductive RunError : Type where
  | specLoadError (msg : String)
  | unsupportedSchema (path reason : String)
  | authenticationError (msg : String)
  | toolExecutionError (toolName : String) (causeMsg : String)
  | plainError (msg : String)
  deriving DecidableEq, Repr

/-- One invocation of the closure returned by `createExecutor`: the entire
`try` block followed by the normalising `catch`.  `parseResult` is the
outcome of `tool.parameters.parse(params)` (`.error` = a `ZodError` carrying
its message), `outcome` the behaviour of `fetch`.  Every failure leaves as
`ToolExecutionError` carrying the tool name. -/
def executeTool (tool : ToolDefinition) (baseUrl : String)
    (st : AuthManagerState) (parseResult : Except String (List (String × Value)))
    (outcome : FetchOutcome) : Except RunError ResponseData :=
  match parseResult with
  | Except.error m =>
    Except.error (RunError.toolExecutionError tool.name ("Invalid parameters: " ++ m))
  | Except.ok validatedParams =>
    let req := prepareRequest tool baseUrl st validatedParams
    match outcome with
    | FetchOutcome.networkError m =>
      Except.error (RunError.toolExecutionError tool.name m)
    | FetchOutcome.success r =>
      let ct := r.contentType.getD ""
      match
        (if containsSubstr ct "application/json" then
          r.jsonResult.map ResponseData.jsonData
        else Except.ok (ResponseData.textData r.textResult)) with
      | Except.error m => Except.error (RunError.toolExecutionError tool.name m)
      | Except.ok responseData =>
        if ¬ r.ok then
          Except.error (RunError.toolExecutionError tool.name
            (httpErrorMessage req.method req.url r responseData))
        else Except.ok responseData

/-- A bound tool as held in the session's tool list: the definition plus its
invocation behaviour (the closure over base URL and auth manager). -/
structure BoundTool where
  name : String
  execute : List (String × Value) → Except RunError ResponseData

/-- `executeToolByName(tools, toolName, params)`: find by name; a missing
tool throws a bare `new Error` — not one of the four named kinds. -/
def executeToolByName (tools : List BoundTool) (toolName : String)
    (params : List (String × Value)) : Except RunError ResponseData :=
  match tools.find? (fun t => t.name == toolName) with
  | Option.none => Except.error (RunError.plainError ("Tool not found: " ++ toolName))
  | some tool => tool.execute params

/-! ## Spec loading (`loadOpenAPISpec`) -/

/-- What the environment supplies to one `loadOpenAPISpec` call.  The parsers
are abstract (`none` = the underlying `JSON.parse` / YAML `parse` threw). -/
structure LoadEnv (Doc : Type) where
  parseJSON : String → Option Doc
  parseYAML : String → Option Doc
  /-- `fetch(specPath)` behaviour for URL inputs. -/
  fetchOk : Bool
  fetchStatus : Nat
  fetchStatusText : String
  fetchText : String
  /-- `readFile(specPath, 'utf-8')` behaviour for file inputs
  (`none` = the read threw). -/
  readResult : Option String

/-- The shared tail of `loadOpenAPISpec`: JSON-vs-YAML dispatch and the
parse-failure wrapping. -/
def parseSpecContent {Doc : Type} (env : LoadEnv Doc) (specPath content : String) :
    Except RunError Doc :=
  if strEndsWith specPath ".json" || strStartsWith (jsTrim content) "\x7b" then
    match env.parseJSON content with
    | some doc => Except.ok doc
    | Option.none => Except.error (RunError.specLoadError "Invalid JSON or YAML format")
  else
    match env.parseYAML content with
    | some doc => Except.ok doc
    | Option.none => Except.error (RunError.specLoadError "Invalid JSON or YAML format")

/-- `loadOpenAPISpec(specPath)`. -/
def loadOpenAPISpec {Doc : Type} (env : LoadEnv Doc) (specPath : String) :
    Except RunError Doc :=
  if strStartsWith specPath "http://" || strStartsWith specPath "https://" then
    if ¬ env.fetchOk then
      Except.error (RunError.specLoadError
        ("HTTP " ++ toString env.fetchStatus ++ ": " ++ env.fetchStatusText))
    else parseSpecContent env specPath env.fetchText
  else
    match env.readResult with
    | Option.none =>
      Except.error (RunError.specLoadError ("Cannot read file: " ++ specPath))
    | some content => parseSpecContent env specPath content

/-! ## Concrete fixtures used by the claim theorems -/

/-- A schema node with only a `type`. -/
def Schema.prim (t : String) : Schema :=
  Schema.mk (some t) Option.none Option.none Option.none Option.none Option.none
    Option.none Option.none Option.none Option.none Option.none

/-- An object schema with `required` and `properties`. -/
def Schema.objOf (req : List String) (props : List (String × Schema)) : Schema :=
  Schema.mk (some "object") Option.none Option.none (some req) (some props)
    Option.none Option.none Option.none Option.none Option.none Option.none

/-- A bare `$ref` schema node. -/
def Schema.refSchema (r : String) : Schema :=
  Schema.mk Option.none Option.none Option.none Option.none Option.none
    Option.none Option.none Option.none Option.none Option.none (some r)

/-- An array schema with an `items` node. -/
def Schema.arrOf (item : Schema) : Schema :=
  Schema.mk (some "array") Option.none Option.none Option.none Option.none
    (some item) Option.none Option.none Option.none Option.none Option.none

def emptyOperation : Operation :=
  ⟨Option.none, Option.none, Option.none, Option.none, Option.none, Option.none⟩

def emptyPathItem : PathItem :=
  ⟨Option.none, Option.none, Option.none, Option.none, Option.none, Option.none⟩

def emptySpec : OpenAPISpec :=
  ⟨Option.none, [], Option.none, Option.none⟩

/-- Same name declared as both a path and a query parameter (C1
counterexample input). -/
def c1op : Operation :=
  { emptyOperation with
      operationId := some "getItem"
      parameters := some
        [⟨"id", "path", true, Option.none, some (Schema.prim "string")⟩,
         ⟨"id", "query", false, Option.none, some (Schema.prim "string")⟩] }

def c1spec : OpenAPISpec :=
  { emptySpec with
      paths := [("/items/\x7bid\x7d", { emptyPathItem with get := some c1op })] }

/-- The tool `parseOperations` produces for `c1spec`. -/
def c1tool : ToolDefinition :=
  { name := "getItem"
    description := "GET /items/\x7bid\x7d"
    parameters := [("id", Zod.optional Zod.string)]
    httpMethod := HttpMethod.GET
    path := "/items/\x7bid\x7d"
    authConfig := some noAuth
    parameterMetadata := some ⟨["id"], ["id"], []⟩ }

/-- Request body with two levels of object nesting below the root (P3's
failing shape). -/
def c2badOp : Operation :=
  { emptyOperation with
      operationId := some "createThing"
      requestBody := some ⟨some [("application/json", ⟨some (Schema.objOf []
        [("a", Schema.objOf [] [("b", Schema.objOf [] [])])])⟩)]⟩ }

/-- Request body with exactly one level of object nesting (P3's succeeding
shape). -/
def c2goodOp : Operation :=
  { emptyOperation with
      operationId := some "createThing"
      requestBody := some ⟨some [("application/json", ⟨some (Schema.objOf ["a"]
        [("a", Schema.objOf [] [("b", Schema.prim "string")])])⟩)]⟩ }

def bearerScheme : SecurityScheme :=
  ⟨"http", some "bearer", Option.none, Option.none, Option.none⟩

/-- Operation that declares `security: []`. -/
def c3opEmptySec : Operation :=
  { emptyOperation with operationId := some "opA", security := some [] }

/-- Operation with no `security` field of its own. -/
def c3opNoSec : Operation :=
  { emptyOperation with operationId := some "opB" }

/-- Document with a global bearer scheme and one operation opting out via
`security: []`. -/
def c3spec : OpenAPISpec :=
  { emptySpec with
      components := some ⟨Option.none, some [("bearerAuth", bearerScheme)]⟩
      security := some [[("bearerAuth", [])]]
      paths := [("/a", { emptyPathItem with get := some c3opEmptySec }),
                ("/b", { emptyPathItem with get := some c3opNoSec })] }

/-- `components.schemas.Loop = { type: array, items: { $ref:
'#/components/schemas/Loop' } }` — a reference cycle through an array's
items schema. -/
def loopRef : Schema := Schema.refSchema "#/components/schemas/Loop"

def loopArr : Schema := Schema.arrOf loopRef

def loopSpec : OpenAPISpec :=
  { emptySpec with components := some ⟨some [("Loop", loopArr)], Option.none⟩ }

/-- Scenario C's tool: `POST /users` with body `{name (required), email
(optional)}`, no auth. -/
def createUserTool : ToolDefinition :=
  { name := "createUser"
    description := "Create a user"
    parameters := [("name", Zod.string), ("email", Zod.optional Zod.string)]
    httpMethod := HttpMethod.POST
    path := "/users"
    authConfig := some noAuth
    parameterMetadata := some ⟨[], [], ["name", "email"]⟩ }

def noAuthState : AuthManagerState :=
  { globalAuthConfig := noAuth, accessToken := Option.none }

/-- A minimal tool used to exercise the executor's error normalisation. -/
def c4tool : ToolDefinition :=
  { name := "noop"
    description := ""
    parameters := []
    httpMethod := HttpMethod.GET
    path := "/noop"
    authConfig := some noAuth
    parameterMetadata := some ⟨[], [], []⟩ }

/-- The last parameter in the list that `buildParametersSchema` will
translate under this name (`path`/`query` location) — the occurrence whose
translation ends up in the shape, since the loop assigns into a map keyed by
the name. -/
def lastRelevant (n : String) : List Parameter → Option Parameter
  | [] => Option.none
  | p :: ps =>
    match lastRelevant n ps with
    | some q => some q
    | Option.none => if p.name == n && relevantIn p then some p else Option.none

/-! ## Helper lemmas -/
theorem keys_setKey {α : Type} (l : List (String × α)) (k : String) (v : α) (k' : String) :
    k' ∈ keys (setKey l k v) ↔ k' = k ∨ k' ∈ keys l := by
  induction l with
  | nil => simp [setKey, keys]
  | cons hd tl ih =>
    obtain ⟨hk, hv⟩ := hd
    by_cases h : hk = k
    · subst h
      rw [show setKey ((hk, hv) :: tl) hk v = (hk, v) :: tl from by simp [setKey]]
      simp only [keys, List.map_cons, List.mem_cons]
      tauto
    · rw [show setKey ((hk, hv) :: tl) k v = (hk, hv) :: setKey tl k v from by simp [setKey, h]]
      simp only [keys, List.map_cons, List.mem_cons]
      simp only [keys] at ih
      rw [ih]
      tauto

theorem mem_addSet (l : List String) (x k : String) :
    k ∈ addSet l x ↔ k = x ∨ k ∈ l := by
  unfold addSet
  by_cases h : x ∈ l
  · simp [h]
    intro he; subst he; exact h
  · simp [h]
    tauto

theorem lookup_setKey_self {α : Type} (l : List (String × α)) (k : String) (v : α) :
    lookup (setKey l k v) k = some v := by
  induction l with
  | nil => simp [setKey, lookup]
  | cons hd tl ih =>
    obtain ⟨hk, hv⟩ := hd
    by_cases h : hk = k
    · subst h; simp [setKey, lookup]
    · simp [setKey, lookup, h, ih]

theorem lookup_setKey_other {α : Type} (l : List (String × α)) (k k' : String) (v : α)
    (h : k' ≠ k) : lookup (setKey l k v) k' = lookup l k' := by
  have hne : k ≠ k' := fun he => h he.symm
  induction l with
  | nil => simp [setKey, lookup, hne]
  | cons hd tl ih =>
    obtain ⟨hk, hv⟩ := hd
    by_cases hh : hk = k
    · subst hh
      simp [setKey, lookup, hne]
    · simp only [setKey, if_neg hh, lookup]
      by_cases hk' : hk = k'
      · simp [hk']
      · simp [hk', ih]

theorem keys_nodup_setKey {α : Type} (l : List (String × α)) (k : String) (v : α)
    (h : (keys l).Nodup) : (keys (setKey l k v)).Nodup := by
  induction l with
  | nil => simp [setKey, keys]
  | cons hd tl ih =>
    obtain ⟨hk, hv⟩ := hd
    simp only [keys, List.map_cons, List.nodup_cons] at h
    by_cases hh : hk = k
    · subst hh
      simpa [setKey, keys, List.nodup_cons] using h
    · simp only [setKey, if_neg hh, keys, List.map_cons, List.nodup_cons]
      refine ⟨?_, ih h.2⟩
      intro hmem
      rcases (keys_setKey tl k v hk).mp hmem with he | hmem'
      · exact hh he
      · exact h.1 hmem'

theorem lookup_mem_keys {α : Type} (l : List (String × α)) (k : String) (v : α)
    (h : lookup l k = some v) : k ∈ keys l := by
  induction l with
  | nil => simp [lookup] at h
  | cons hd tl ih =>
    obtain ⟨hk, hv⟩ := hd
    by_cases hh : hk = k
    · subst hh; simp [keys]
    · simp only [lookup, if_neg hh] at h
      have := ih h
      simp only [keys, List.map_cons, List.mem_cons]
      right
      simpa [keys] using this


/-! ## C7: `$ref` resolution -/

set_option maxRecDepth 10000 in
theorem resolveRef_loop (n : Nat) :
    resolveRef (n+1) "#/components/schemas/Loop" loopSpec [] = some (Except.ok loopArr) := by
  simp only [resolveRef]
  rw [if_neg (by simp : ¬ ("#/components/schemas/Loop" ∈ ([] : List String)))]
  rw [if_neg (by decide : ¬ ¬ (strStartsWith "#/components/schemas/Loop" refBase = true))]
  rw [(by decide : strDrop "#/components/schemas/Loop" refBase.length = "Loop")]
  simp [OpenAPISpec.componentSchema, loopSpec, emptySpec, lookup, loopArr, Schema.arrOf,
    Schema.ref]

theorem schemaToZod_loopRef_step (n : Nat) (path : String) (depth : Nat) :
    schemaToZod (n+1) loopRef path loopSpec depth [] =
      schemaToZod n loopArr path loopSpec depth [] := by
  simp only [schemaToZod, loopRef, Schema.refSchema, Schema.ref, resolveRef_loop]

theorem schemaToZod_loopArr_step (n : Nat) (path : String) (depth : Nat) :
    schemaToZod (n+1) loopArr path loopSpec depth [] =
      (match schemaToZod n loopRef (path ++ ".items") loopSpec depth [] with
       | Option.none => Option.none
       | some (Except.error e) => some (Except.error e)
       | some (Except.ok z) => some (Except.ok (Zod.array z))) := by
  simp only [schemaToZod, loopArr, loopRef, Schema.arrOf, Schema.refSchema, Schema.ref,
    Schema.anyOf, Schema.oneOf, Schema.allOf, Schema.type, Schema.items, Schema.description,
    Option.isSome, describeIf]
  simp

/-- C7: the claim says `$ref` resolution fails with `UnsupportedSchemaKind` on
every reference cycle so that translation terminates on every input.  It does
not: on `components.schemas.Loop = { type: 'array', items: { $ref:
'#/components/schemas/Loop' } }`, `schemaToZod` bounces between the `$ref`
node and the array node forever — `schemaToZod` never extends its `visited`
set (only each single `resolveRef` chain does), so the items-level cycle is
never detected and for every fuel bound the run is still unfinished
(the real code recurses until the stack overflows). -/
theorem schemaToZod_ref_cycle_diverges :
    ∀ (fuel : Nat) (path : String) (depth : Nat),
      schemaToZod fuel loopRef path loopSpec depth [] = Option.none ∧
      schemaToZod fuel loopArr path loopSpec depth [] = Option.none := by
  intro fuel
  induction fuel with
  | zero => intro path depth; exact ⟨rfl, rfl⟩
  | succ n ih =>
    intro path depth
    constructor
    · rw [schemaToZod_loopRef_step n path depth]
      exact (ih path depth).2
    · rw [schemaToZod_loopArr_step n path depth, (ih (path ++ ".items") depth).1]

/-! ## C3: operation-level security override -/

/-- C3: an operation's own `security` field (even an empty list) determines
the resolved auth configuration, otherwise the document's global security is
used; an empty list at either level resolves to `{type: none}`; in `c3spec`
(global bearer scheme, one operation with `security: []`) the opting-out
operation resolves to `{type: none}` while the other operation — and the
global configuration — resolve to bearer. -/
theorem extractOperationAuthConfig_override :
    (∀ (spec : OpenAPISpec) (op : Operation) (l : List SecurityRequirement),
        op.security = some l →
        extractOperationAuthConfig spec op =
          extractAuthConfigFromSecurity (some l) spec.secSchemes) ∧
    (∀ (spec : OpenAPISpec) (op : Operation),
        op.security = Option.none →
        extractOperationAuthConfig spec op = extractAuthConfig spec) ∧
    (∀ schemes, extractAuthConfigFromSecurity (some []) schemes = Except.ok noAuth) ∧
    extractOperationAuthConfig c3spec c3opEmptySec = Except.ok noAuth ∧
    extractOperationAuthConfig c3spec c3opNoSec =
      Except.ok { type := AuthType.bearer } ∧
    extractAuthConfig c3spec = Except.ok { type := AuthType.bearer } := by
  refine ⟨?_, ?_, ?_, rfl, rfl, rfl⟩
  · intro spec op l h
    simp [extractOperationAuthConfig, h]
  · intro spec op h
    simp [extractOperationAuthConfig, h]
  · intro schemes
    simp [extractAuthConfigFromSecurity]

theorem extractOperationAuthConfig_override_witness :
    extractOperationAuthConfig c3spec c3opEmptySec =
      extractAuthConfigFromSecurity (some []) c3spec.secSchemes :=
  extractOperationAuthConfig_override.1 c3spec c3opEmptySec [] rfl

/-! ## C10: parameter separation -/

theorem keys_separateStep_path (m : ParameterMetadata) (acc : SeparatedParams)
    (kv : String × Value) (k : String) :
    k ∈ keys (separateStep m acc kv).pathParams ↔
      (k = kv.1 ∧ kv.1 ∈ m.pathParams) ∨ k ∈ keys acc.pathParams := by
  unfold separateStep
  by_cases hp : kv.1 ∈ m.pathParams
  · simp [hp, keys_setKey]
  · by_cases hq : kv.1 ∈ m.queryParams <;>
      by_cases hb : kv.1 ∈ m.bodyParams <;> simp [hp, hq, hb]

theorem keys_separateStep_query (m : ParameterMetadata) (acc : SeparatedParams)
    (kv : String × Value) (k : String) :
    k ∈ keys (separateStep m acc kv).queryParams ↔
      (k = kv.1 ∧ kv.1 ∉ m.pathParams ∧ kv.1 ∈ m.queryParams) ∨
        k ∈ keys acc.queryParams := by
  unfold separateStep
  by_cases hp : kv.1 ∈ m.pathParams
  · simp [hp]
  · by_cases hq : kv.1 ∈ m.queryParams
    · simp [hp, hq, keys_setKey]
    · by_cases hb : kv.1 ∈ m.bodyParams <;> simp [hp, hq, hb]

theorem keys_separateStep_body (m : ParameterMetadata) (acc : SeparatedParams)
    (kv : String × Value) (k : String) :
    k ∈ keys (separateStep m acc kv).bodyParams ↔
      (k = kv.1 ∧ kv.1 ∉ m.pathParams ∧ kv.1 ∉ m.queryParams) ∨
        k ∈ keys acc.bodyParams := by
  unfold separateStep
  by_cases hp : kv.1 ∈ m.pathParams
  · simp [hp]
  · by_cases hq : kv.1 ∈ m.queryParams
    · simp [hp, hq]
    · by_cases hb : kv.1 ∈ m.bodyParams <;> simp [hp, hq, hb, keys_setKey]

theorem separateFold_path (m : ParameterMetadata) :
    ∀ (params : List (String × Value)) (acc : SeparatedParams) (k : String),
      k ∈ keys (params.foldl (separateStep m) acc).pathParams ↔
        k ∈ keys acc.pathParams ∨ (k ∈ keys params ∧ k ∈ m.pathParams) := by
  intro params
  induction params with
  | nil => intro acc k; simp [keys]
  | cons kv rest ih =>
    intro acc k
    rw [List.foldl_cons, ih (separateStep m acc kv) k, keys_separateStep_path]
    by_cases he : k = kv.1
    · subst he
      simp only [keys, List.map_cons, List.mem_cons, true_and]
      tauto
    · simp only [keys, List.map_cons, List.mem_cons]
      simp only [keys] at *
      tauto

theorem separateFold_query (m : ParameterMetadata) :
    ∀ (params : List (String × Value)) (acc : SeparatedParams) (k : String),
      k ∈ keys (params.foldl (separateStep m) acc).queryParams ↔
        k ∈ keys acc.queryParams ∨
          (k ∈ keys params ∧ k ∉ m.pathParams ∧ k ∈ m.queryParams) := by
  intro params
  induction params with
  | nil => intro acc k; simp [keys]
  | cons kv rest ih =>
    intro acc k
    rw [List.foldl_cons, ih (separateStep m acc kv) k, keys_separateStep_query]
    by_cases he : k = kv.1
    · subst he
      simp only [keys, List.map_cons, List.mem_cons, true_and]
      tauto
    · simp only [keys, List.map_cons, List.mem_cons]
      simp only [keys] at *
      tauto

theorem separateFold_body (m : ParameterMetadata) :
    ∀ (params : List (String × Value)) (acc : SeparatedParams) (k : String),
      k ∈ keys (params.foldl (separateStep m) acc).bodyParams ↔
        k ∈ keys acc.bodyParams ∨
          (k ∈ keys params ∧ k ∉ m.pathParams ∧ k ∉ m.queryParams) := by
  intro params
  induction params with
  | nil => intro acc k; simp [keys]
  | cons kv rest ih =>
    intro acc k
    rw [List.foldl_cons, ih (separateStep m acc kv) k, keys_separateStep_body]
    by_cases he : k = kv.1
    · subst he
      simp only [keys, List.map_cons, List.mem_cons, true_and]
      tauto
    · simp only [keys, List.map_cons, List.mem_cons]
      simp only [keys] at *
      tauto

/-- C10: with placement metadata, `separateParams` puts every validated field
into exactly one bucket — path placement wins over query, query over body,
and a field absent from all three metadata sets lands in the body bucket (the
body condition only requires the field to be in neither `pathParams` nor
`queryParams`). -/
theorem separateParams_placement (params : List (String × Value))
    (m : ParameterMetadata) (k : String) :
    (k ∈ keys (separateParams params (some m)).pathParams ↔
      k ∈ keys params ∧ k ∈ m.pathParams) ∧
    (k ∈ keys (separateParams params (some m)).queryParams ↔
      k ∈ keys params ∧ k ∉ m.pathParams ∧ k ∈ m.queryParams) ∧
    (k ∈ keys (separateParams params (some m)).bodyParams ↔
      k ∈ keys params ∧ k ∉ m.pathParams ∧ k ∉ m.queryParams) := by
  unfold separateParams
  refine ⟨?_, ?_, ?_⟩
  · rw [separateFold_path m params ⟨[], [], []⟩ k]
    simp [keys]
  · rw [separateFold_query m params ⟨[], [], []⟩ k]
    simp [keys]
  · rw [separateFold_body m params ⟨[], [], []⟩ k]
    simp [keys]

/-! ## C8: spec loader -/

/-- C8: the loader parses as JSON exactly when the path ends in `.json` or
the trimmed content starts with a brace, and as YAML otherwise; a parse
failure in either branch, a failed file read, and a non-success HTTP status
all surface as `SpecLoadError`. -/
theorem loadOpenAPISpec_format_dispatch :
    (∀ (Doc : Type) (env : LoadEnv Doc) (specPath content : String),
        (strEndsWith specPath ".json" || strStartsWith (jsTrim content) "\x7b") = true →
        parseSpecContent env specPath content =
          (match env.parseJSON content with
           | some doc => Except.ok doc
           | Option.none =>
             Except.error (RunError.specLoadError "Invalid JSON or YAML format"))) ∧
    (∀ (Doc : Type) (env : LoadEnv Doc) (specPath content : String),
        (strEndsWith specPath ".json" || strStartsWith (jsTrim content) "\x7b") = false →
        parseSpecContent env specPath content =
          (match env.parseYAML content with
           | some doc => Except.ok doc
           | Option.none =>
             Except.error (RunError.specLoadError "Invalid JSON or YAML format"))) ∧
    (∀ (Doc : Type) (env : LoadEnv Doc) (specPath : String),
        (strStartsWith specPath "http://" || strStartsWith specPath "https://") = true →
        env.fetchOk = false →
        loadOpenAPISpec env specPath =
          Except.error (RunError.specLoadError
            ("HTTP " ++ toString env.fetchStatus ++ ": " ++ env.fetchStatusText))) ∧
    (∀ (Doc : Type) (env : LoadEnv Doc) (specPath : String),
        (strStartsWith specPath "http://" || strStartsWith specPath "https://") = true →
        env.fetchOk = true →
        loadOpenAPISpec env specPath = parseSpecContent env specPath env.fetchText) ∧
    (∀ (Doc : Type) (env : LoadEnv Doc) (specPath : String),
        (strStartsWith specPath "http://" || strStartsWith specPath "https://") = false →
        env.readResult = Option.none →
        loadOpenAPISpec env specPath =
          Except.error (RunError.specLoadError ("Cannot read file: " ++ specPath))) ∧
    (∀ (Doc : Type) (env : LoadEnv Doc) (specPath content : String),
        (strStartsWith specPath "http://" || strStartsWith specPath "https://") = false →
        env.readResult = some content →
        loadOpenAPISpec env specPath = parseSpecContent env specPath content) := by
  refine ⟨?_, ?_, ?_, ?_, ?_, ?_⟩
  · intro Doc env specPath content h
    simp [parseSpecContent, h]
  · intro Doc env specPath content h
    simp [parseSpecContent, h]
  · intro Doc env specPath h hf
    simp [loadOpenAPISpec, h, hf]
  · intro Doc env specPath h hf
    simp [loadOpenAPISpec, h, hf]
  · intro Doc env specPath h hr
    simp [loadOpenAPISpec, h, hr]
  · intro Doc env specPath content h hr
    simp [loadOpenAPISpec, h, hr]

/-- A load environment whose fetch fails with HTTP 500. -/
def c8env : LoadEnv Unit :=
  { parseJSON := fun _ => some ()
    parseYAML := fun _ => some ()
    fetchOk := false
    fetchStatus := 500
    fetchStatusText := "Server Error"
    fetchText := ""
    readResult := Option.none }

theorem loadOpenAPISpec_format_dispatch_witness :
    loadOpenAPISpec c8env "http://example.com/spec" =
      Except.error (RunError.specLoadError
        ("HTTP " ++ toString c8env.fetchStatus ++ ": " ++ c8env.fetchStatusText)) :=
  loadOpenAPISpec_format_dispatch.2.2.1 Unit c8env "http://example.com/spec"
    (by decide) rfl

/-! ## C4: error normalisation at the tool-invocation boundary -/

/-- C4 (amended): every failure of the closure built by `createExecutor` —
parameter-validation failure, transport failure, response-body parse failure,
non-2xx status — leaves as a `ToolExecutionError` carrying the tool's name. -/
theorem executeTool_error_normalisation (tool : ToolDefinition) (baseUrl : String)
    (st : AuthManagerState) (parseResult : Except String (List (String × Value)))
    (outcome : FetchOutcome) (e : RunError)
    (h : executeTool tool baseUrl st parseResult outcome = Except.error e) :
    ∃ cause, e = RunError.toolExecutionError tool.name cause := by
  unfold executeTool at h
  cases parseResult with
  | error m =>
    simp only [Except.error.injEq] at h
    exact ⟨_, h.symm⟩
  | ok validatedParams =>
    cases outcome with
    | networkError m =>
      simp only [Except.error.injEq] at h
      exact ⟨_, h.symm⟩
    | success r =>
      dsimp only at h
      cases hd : (if containsSubstr (r.contentType.getD "") "application/json" = true
          then Except.map ResponseData.jsonData r.jsonResult
          else Except.ok (ResponseData.textData r.textResult)) with
      | error m =>
        rw [hd] at h
        dsimp only at h
        simp only [Except.error.injEq] at h
        exact ⟨_, h.symm⟩
      | ok d =>
        rw [hd] at h
        dsimp only at h
        by_cases hok : r.ok = true
        · rw [if_neg (fun hc => hc hok)] at h
          cases h
        · rw [if_pos hok] at h
          simp only [Except.error.injEq] at h
          exact ⟨_, h.symm⟩

theorem executeTool_error_normalisation_witness :
    ∃ cause, RunError.toolExecutionError c4tool.name "Invalid parameters: bad" =
      RunError.toolExecutionError c4tool.name cause :=
  executeTool_error_normalisation c4tool "https://api.example.com" noAuthState
    (Except.error "bad") (FetchOutcome.networkError "unreachable")
    (RunError.toolExecutionError c4tool.name "Invalid parameters: bad") rfl

/-- C4 counterexample: `executeToolByName` on an unknown tool name throws a
bare `new Error('Tool not found: …')` — a failure that reaches the consumer
as none of the four named error kinds, refuting the claim that every consumer-
visible failure is one of them. -/
theorem executeToolByName_plain_error_cex :
    ∃ e, executeToolByName [] "foo" [] = Except.error e ∧
      (∀ m, e ≠ RunError.specLoadError m) ∧
      (∀ p r, e ≠ RunError.unsupportedSchema p r) ∧
      (∀ m, e ≠ RunError.authenticationError m) ∧
      (∀ t c, e ≠ RunError.toolExecutionError t c) := by
  refine ⟨RunError.plainError "Tool not found: foo", rfl, ?_, ?_, ?_, ?_⟩ <;>
    intro _ <;> simp

/-! ## C5: JSON body serialisation -/

theorem mem_setKey_self {α : Type} (l : List (String × α)) (k : String) (v : α) :
    (k, v) ∈ setKey l k v := by
  induction l with
  | nil => simp [setKey]
  | cons hd tl ih =>
    obtain ⟨hk, hv⟩ := hd
    by_cases h : hk = k
    · subst h; simp [setKey]
    · simp [setKey, h, ih]

/-- C5: for POST/PUT/PATCH invocations whose validated parameters yield at
least one body field, the request body is exactly `JSON.stringify` of the
body bucket (absent optional fields are simply not in the bucket; fields
valued `undefined` are dropped by the serialiser) and `Content-Type:
application/json` is set; with an empty body bucket no body is sent,
whatever the method. -/
theorem prepareRequest_body_serialisation (tool : ToolDefinition)
    (baseUrl : String) (st : AuthManagerState)
    (validatedParams : List (String × Value)) :
    (tool.httpMethod ∈ [HttpMethod.POST, HttpMethod.PUT, HttpMethod.PATCH] →
      (separateParams validatedParams tool.parameterMetadata).bodyParams ≠ [] →
      (prepareRequest tool baseUrl st validatedParams).body =
          some (jsonStringifyObject
            (separateParams validatedParams tool.parameterMetadata).bodyParams) ∧
        ("Content-Type", "application/json") ∈
          (prepareRequest tool baseUrl st validatedParams).headers) ∧
    ((separateParams validatedParams tool.parameterMetadata).bodyParams = [] →
      (prepareRequest tool baseUrl st validatedParams).body = Option.none) := by
  constructor
  · intro hm hb
    have hc : [HttpMethod.POST, HttpMethod.PUT, HttpMethod.PATCH].contains
        tool.httpMethod = true := List.elem_iff.mpr hm
    have hne : (separateParams validatedParams
        tool.parameterMetadata).bodyParams.isEmpty = false := by
      cases hx : (separateParams validatedParams tool.parameterMetadata).bodyParams with
      | nil => exact absurd hx hb
      | cons a l => simp [List.isEmpty]
    unfold prepareRequest
    simp only [hc, hne, Bool.not_false, Bool.and_self, if_pos]
    constructor
    · trivial
    · exact mem_setKey_self _ _ _
  · intro hb
    unfold prepareRequest
    simp only [hb, List.isEmpty_nil, Bool.not_true, Bool.and_false, if_neg]
    simp

/-- Scenario C: invoking `createUser` with `{name: "John"}` sends a JSON
body that is exactly `\x7b"name":"John"\x7d` (no `email` key), the JSON
content type, and targets `{baseUrl}/users`. -/
theorem prepareRequest_body_serialisation_witness :
    ((prepareRequest createUserTool "https://api.example.com" noAuthState
        [("name", Value.str "John")]).body =
      some (jsonStringifyObject
        (separateParams [("name", Value.str "John")]
          createUserTool.parameterMetadata).bodyParams) ∧
      ("Content-Type", "application/json") ∈
        (prepareRequest createUserTool "https://api.example.com" noAuthState
          [("name", Value.str "John")]).headers) ∧
    (prepareRequest createUserTool "https://api.example.com" noAuthState
        [("name", Value.str "John")]).url = "https://api.example.com/users" ∧
    jsonStringifyObject
        (separateParams [("name", Value.str "John")]
          createUserTool.parameterMetadata).bodyParams = "\x7b\"name\":\"John\"\x7d" :=
  ⟨(prepareRequest_body_serialisation createUserTool "https://api.example.com"
      noAuthState [("name", Value.str "John")]).1 (by decide)
      (List.cons_ne_nil _ _), by decide, by decide⟩

/-! ## C9: auth credential rendering -/

/-- C9: `getAuthHeaders`/`getAuthQueryParams` are pure functions of the
current credential and the effective (override-or-global) configuration:
both are empty with no credential set; equal inputs give equal outputs (so
repeated calls with unchanged state agree); bearer and oauth2 render
`Authorization: Bearer <token>`, basic renders `Authorization: Basic
<token>`; an apiKey credential is rendered as the named header or the named
query parameter according to the configured placement; and for no state at
all are both maps non-empty at once. -/
theorem authManager_render_pure :
    (∀ (st : AuthManagerState) (c : Option AuthConfig),
        st.accessToken = Option.none →
        getAuthHeaders st c = [] ∧ getAuthQueryParams st c = []) ∧
    (∀ (st₁ st₂ : AuthManagerState) (c₁ c₂ : Option AuthConfig),
        st₁.accessToken = st₂.accessToken →
        c₁.getD st₁.globalAuthConfig = c₂.getD st₂.globalAuthConfig →
        getAuthHeaders st₁ c₁ = getAuthHeaders st₂ c₂ ∧
          getAuthQueryParams st₁ c₁ = getAuthQueryParams st₂ c₂) ∧
    (∀ (st : AuthManagerState) (c : Option AuthConfig) (t : String),
        st.accessToken = some t → t ≠ "" →
        ((c.getD st.globalAuthConfig).type = AuthType.oauth2 ∨
          (c.getD st.globalAuthConfig).type = AuthType.bearer) →
        getAuthHeaders st c = [("Authorization", "Bearer " ++ t)] ∧
          getAuthQueryParams st c = []) ∧
    (∀ (st : AuthManagerState) (c : Option AuthConfig) (t : String),
        st.accessToken = some t → t ≠ "" →
        (c.getD st.globalAuthConfig).type = AuthType.basic →
        getAuthHeaders st c = [("Authorization", "Basic " ++ t)] ∧
          getAuthQueryParams st c = []) ∧
    (∀ (st : AuthManagerState) (c : Option AuthConfig) (t hname : String),
        st.accessToken = some t → t ≠ "" → hname ≠ "" →
        (c.getD st.globalAuthConfig).type = AuthType.apiKey →
        (c.getD st.globalAuthConfig).apiKeyIn = some "header" →
        (c.getD st.globalAuthConfig).apiKeyHeader = some hname →
        getAuthHeaders st c = [(hname, t)] ∧ getAuthQueryParams st c = []) ∧
    (∀ (st : AuthManagerState) (c : Option AuthConfig) (t hname : String),
        st.accessToken = some t → t ≠ "" → hname ≠ "" →
        (c.getD st.globalAuthConfig).type = AuthType.apiKey →
        (c.getD st.globalAuthConfig).apiKeyIn = some "query" →
        (c.getD st.globalAuthConfig).apiKeyHeader = some hname →
        getAuthHeaders st c = [] ∧ getAuthQueryParams st c = [(hname, t)]) ∧
    (∀ (st : AuthManagerState) (c : Option AuthConfig),
        getAuthHeaders st c = [] ∨ getAuthQueryParams st c = []) := by
  refine ⟨?_, ?_, ?_, ?_, ?_, ?_, ?_⟩
  · intro st c h
    constructor <;> simp [getAuthHeaders, getAuthQueryParams, isTruthy, h]
  · intro st1 st2 c1 c2 ht hc
    constructor <;> simp only [getAuthHeaders, getAuthQueryParams, ht, hc]
  · intro st c t ht htne htype
    rcases htype with h | h <;>
      constructor <;>
        simp [getAuthHeaders, getAuthQueryParams, isTruthy, ht, htne, h]
  · intro st c t ht htne htype
    constructor <;>
      simp [getAuthHeaders, getAuthQueryParams, isTruthy, ht, htne, htype]
  · intro st c t hname ht htne hhne htype hin hh
    constructor <;>
      simp [getAuthHeaders, getAuthQueryParams, isTruthy, ht, htne, htype, hin, hh, hhne]
  · intro st c t hname ht htne hhne htype hin hh
    constructor <;>
      simp [getAuthHeaders, getAuthQueryParams, isTruthy, ht, htne, htype, hin, hh, hhne]
  · intro st c
    by_cases ht : isTruthy st.accessToken
    · rcases htype : (c.getD st.globalAuthConfig).type with _ | _ | _ | _ | _
      · right
        simp [getAuthQueryParams, htype]
      · by_cases hin : (c.getD st.globalAuthConfig).apiKeyIn = some "header"
        · right
          simp [getAuthQueryParams, htype, hin]
        · left
          simp [getAuthHeaders, htype, hin, ht]
      · right
        simp [getAuthQueryParams, htype]
      · right
        simp [getAuthQueryParams, htype]
      · left
        simp [getAuthHeaders, htype, ht]
    · left
      simp [getAuthHeaders, ht]

def bearerState : AuthManagerState :=
  { globalAuthConfig := { type := AuthType.bearer }, accessToken := some "secret123" }

theorem authManager_render_pure_witness :
    getAuthHeaders bearerState Option.none =
      [("Authorization", "Bearer " ++ "secret123")] ∧
    getAuthQueryParams bearerState Option.none = [] :=
  authManager_render_pure.2.2.1 bearerState Option.none "secret123" rfl
    (by decide) (Or.inr rfl)

/-! ## C2: depth rejection -/

/-- C2: an object schema more than one level below the parameter/body root is
rejected with `UnsupportedSchemaKind` (whatever else the node contains, every
failure of the translator is that error kind), a request-body object property
whose own property is an object fails translation at
`createThing.requestBody.a.b`, and a request body with exactly one level of
object nesting succeeds. -/
theorem schemaToZod_depth_rejection :
    (∀ (fuel : Nat) (s : Schema) (path : String) (spec : OpenAPISpec)
        (depth : Nat) (visited : List String),
        s.ref = Option.none →
        (s.type = some "object" ∨ (s.type ≠ some "array" ∧ s.properties.isSome)) →
        depth > 1 →
        ∃ e, schemaToZod (fuel + 1) s path spec depth visited =
          some (Except.error e)) ∧
    buildRequestBodySchema 10 c2badOp "createThing" emptySpec =
      some (Except.error ⟨"createThing.requestBody.a.b",
        "Nested objects beyond 1 level are not supported"⟩) ∧
    buildRequestBodySchema 10 c2goodOp "createThing" emptySpec =
      some (Except.ok ⟨[("a", Zod.object [("b", Zod.optional Zod.string)])], ["a"]⟩) := by
  refine ⟨?_, rfl, rfl⟩
  intro fuel s path spec depth visited href hshape hdepth
  cases s with
  | mk t f d r pr it en ao oo al rf =>
    simp only [Schema.ref] at href
    subst href
    simp only [Schema.type, Schema.properties] at hshape
    cases ao with
    | some l =>
      exact ⟨⟨path, "anyOf is not supported"⟩,
        by simp [schemaToZod, Schema.ref, Schema.anyOf]⟩
    | none =>
    cases oo with
    | some l =>
      exact ⟨⟨path, "oneOf is not supported"⟩,
        by simp [schemaToZod, Schema.ref, Schema.anyOf, Schema.oneOf]⟩
    | none =>
    cases al with
    | some l =>
      exact ⟨⟨path, "allOf is not supported"⟩,
        by simp [schemaToZod, Schema.ref, Schema.anyOf, Schema.oneOf, Schema.allOf]⟩
    | none =>
      have harr : ¬ (t = some "array") := by
        rcases hshape with h1 | h2
        · rw [h1]; simp
        · exact h2.1
      refine ⟨⟨path, "Nested objects beyond 1 level are not supported"⟩, ?_⟩
      simp [schemaToZod, Schema.ref, Schema.anyOf, Schema.oneOf, Schema.allOf,
        Schema.type, Schema.properties, harr, hdepth]
      intro h1 h2
      exfalso
      rcases hshape with h3 | h3
      · exact h1 h3
      · simp [h2] at h3

theorem schemaToZod_depth_rejection_witness :
    ∃ e, schemaToZod (4 + 1) (Schema.objOf [] []) "p" emptySpec 2 [] =
      some (Except.error e) :=
  schemaToZod_depth_rejection.1 4 (Schema.objOf [] []) "p" emptySpec 2 []
    rfl (Or.inl rfl) (by decide)

/-! ## C6: parameter collision — operation level wins -/

theorem lastRelevant_append (n : String) (l1 l2 : List Parameter) :
    lastRelevant n (l1 ++ l2) =
      (match lastRelevant n l2 with
       | some q => some q
       | Option.none => lastRelevant n l1) := by
  induction l1 with
  | nil => cases h : lastRelevant n l2 <;> simp [h, lastRelevant]
  | cons p l1 ih =>
    cases h2 : lastRelevant n l2 with
    | none =>
      cases h1 : lastRelevant n l1 with
      | none => simp only [List.cons_append, lastRelevant, List.append_eq, ih, h1, h2]
      | some q => simp only [List.cons_append, lastRelevant, List.append_eq, ih, h1, h2]
    | some q => simp only [List.cons_append, lastRelevant, List.append_eq, ih, h2]

theorem buildParamsAux_nodup (fuel : Nat) (spec : OpenAPISpec) (opId : String) :
    ∀ (ps : List Parameter) (acc res : ParamsAcc),
      buildParametersSchemaAux fuel spec opId ps acc = some (Except.ok res) →
      (keys acc.shape).Nodup → (keys res.shape).Nodup := by
  intro ps
  induction ps with
  | nil =>
    intro acc res h hnd
    simp only [buildParametersSchemaAux, Option.some.injEq, Except.ok.injEq] at h
    exact h ▸ hnd
  | cons p rest ih =>
    intro acc res h hnd
    by_cases hrel : relevantIn p = true
    · simp only [buildParametersSchemaAux, hrel, Bool.not_true, if_neg,
        Bool.true_eq_false, not_false_eq_true, if_pos] at h
      cases htr : translateParam fuel spec opId p with
      | none => rw [htr] at h; cases h
      | some r =>
        cases r with
        | error e => rw [htr] at h; cases h
        | ok z =>
          rw [htr] at h
          exact ih _ res h (keys_nodup_setKey _ _ _ hnd)
    · simp only [buildParametersSchemaAux, hrel, if_pos] at h
      exact ih _ res h hnd

theorem buildParamsAux_lookup (fuel : Nat) (spec : OpenAPISpec) (opId : String)
    (n : String) :
    ∀ (ps : List Parameter) (acc res : ParamsAcc),
      buildParametersSchemaAux fuel spec opId ps acc = some (Except.ok res) →
      (∃ q z, lastRelevant n ps = some q ∧
        translateParam fuel spec opId q = some (Except.ok z) ∧
        lookup res.shape n = some z) ∨
      (lastRelevant n ps = Option.none ∧
        lookup res.shape n = lookup acc.shape n) := by
  intro ps
  induction ps with
  | nil =>
    intro acc res h
    simp only [buildParametersSchemaAux, Option.some.injEq, Except.ok.injEq] at h
    right
    exact ⟨rfl, h ▸ rfl⟩
  | cons p rest ih =>
    intro acc res h
    by_cases hrel : relevantIn p = true
    · simp only [buildParametersSchemaAux, hrel, Bool.not_true, Bool.true_eq_false,
        not_false_eq_true, if_pos, if_neg] at h
      cases htr : translateParam fuel spec opId p with
      | none => rw [htr] at h; cases h
      | some r =>
        cases r with
        | error e => rw [htr] at h; cases h
        | ok z =>
          rw [htr] at h
          rcases ih _ res h with ⟨q, z', hlast, htr', hlook⟩ | ⟨hnone, hlook⟩
          · left
            exact ⟨q, z', by simp [lastRelevant, hlast], htr', hlook⟩
          · by_cases hn : p.name = n
            · left
              refine ⟨p, z, ?_, htr, ?_⟩
              · simp [lastRelevant, hnone, hn, hrel]
              · rw [hlook]
                subst hn
                exact lookup_setKey_self _ _ _
            · right
              constructor
              · simp [lastRelevant, hnone, hn]
              · rw [hlook]
                exact lookup_setKey_other _ _ _ _ (fun he => hn he.symm)
    · simp only [buildParametersSchemaAux, hrel, if_pos] at h
      rcases ih _ res h with ⟨q, z', hlast, htr', hlook⟩ | ⟨hnone, hlook⟩
      · left
        exact ⟨q, z', by simp [lastRelevant, hlast], htr', hlook⟩
      · right
        refine ⟨?_, hlook⟩
        simp [lastRelevant, hnone, hrel]

/-- C6: when a path-level and an operation-level parameter share a name, the
concatenated list is translated and the merged shape keeps exactly one field
under that name, holding the translation of the last `path`/`query`
declaration in the list — the operation-level one, since operation-level
parameters are appended after path-level ones. -/
theorem buildParametersSchema_operation_overrides (fuel : Nat)
    (spec : OpenAPISpec) (opId : String) (pathPs opPs : List Parameter)
    (n : String) (p q : Parameter) (res : ParamsAcc)
    (hp : p ∈ pathPs) (hpn : p.name = n) (hprel : relevantIn p = true)
    (hq : lastRelevant n opPs = some q)
    (hbuild : buildParametersSchema fuel (pathPs ++ opPs) opId spec =
      some (Except.ok res)) :
    ∃ z, translateParam fuel spec opId q = some (Except.ok z) ∧
      lookup res.shape n = some z ∧ (keys res.shape).count n = 1 := by
  have hlast : lastRelevant n (pathPs ++ opPs) = some q := by
    rw [lastRelevant_append, hq]
  have hnd : (keys res.shape).Nodup :=
    buildParamsAux_nodup fuel spec opId (pathPs ++ opPs) ⟨[], [], []⟩ res hbuild
      (by simp [keys])
  rcases buildParamsAux_lookup fuel spec opId n (pathPs ++ opPs) ⟨[], [], []⟩ res
      hbuild with ⟨q', z, hlast', htr, hlook⟩ | ⟨hnone, _⟩
  · rw [hlast] at hlast'
    cases hlast'
    refine ⟨z, htr, hlook, ?_⟩
    exact List.count_eq_one_of_mem hnd (lookup_mem_keys _ _ _ hlook)
  · rw [hlast] at hnone
    cases hnone

def c6pathParam : Parameter :=
  ⟨"id", "path", true, Option.none, some (Schema.prim "string")⟩

def c6opParam : Parameter :=
  ⟨"id", "query", false, Option.none, some (Schema.prim "number")⟩

theorem buildParametersSchema_operation_overrides_witness :
    ∃ z, translateParam 5 emptySpec "op" c6opParam = some (Except.ok z) ∧
      lookup [("id", Zod.optional Zod.number)] "id" = some z ∧
      (keys [("id", Zod.optional Zod.number)]).count "id" = 1 :=
  buildParametersSchema_operation_overrides 5 emptySpec "op"
    [c6pathParam] [c6opParam] "id" c6pathParam c6opParam
    ⟨[("id", Zod.optional Zod.number)], ["id"], ["id"]⟩
    (by simp) rfl (by decide) rfl rfl

/-! ## C1: placement metadata vs. validator fields -/

theorem buildParamsAux_mem (fuel : Nat) (spec : OpenAPISpec) (opId : String) :
    ∀ (ps : List Parameter) (acc res : ParamsAcc),
      buildParametersSchemaAux fuel spec opId ps acc = some (Except.ok res) →
      (∀ k, k ∈ keys acc.shape ↔ (k ∈ acc.pathParams ∨ k ∈ acc.queryParams)) →
      ∀ k, k ∈ keys res.shape ↔ (k ∈ res.pathParams ∨ k ∈ res.queryParams) := by
  intro ps
  induction ps with
  | nil =>
    intro acc res h hinv
    simp only [buildParametersSchemaAux, Option.some.injEq, Except.ok.injEq] at h
    exact h ▸ hinv
  | cons p rest ih =>
    intro acc res h hinv
    by_cases hrel : relevantIn p = true
    · simp only [buildParametersSchemaAux, hrel, Bool.not_true, Bool.true_eq_false,
        not_false_eq_true, if_pos, if_neg] at h
      cases htr : translateParam fuel spec opId p with
      | none => rw [htr] at h; cases h
      | some r =>
        cases r with
        | error e => rw [htr] at h; cases h
        | ok z =>
          rw [htr] at h
          refine ih _ res h ?_
          intro k
          by_cases hpath : (p.in_ == "path") = true
          · have hq : (p.in_ == "query") = false := by
              have := eq_of_beq hpath
              rw [this]
              decide
            simp only [hpath, hq, if_pos, Bool.false_eq_true, if_neg]
            rw [keys_setKey, hinv k, mem_addSet]
            tauto
          · have hq : (p.in_ == "query") = true := by
              unfold relevantIn at hrel
              rcases Bool.or_eq_true_iff.mp hrel with h1 | h1
              · exact absurd h1 hpath
              · exact h1
            simp only [hpath, hq, if_pos, Bool.false_eq_true, if_neg]
            rw [keys_setKey, hinv k, mem_addSet]
            tauto
    · simp only [buildParametersSchemaAux, hrel, if_pos] at h
      exact ih _ res h hinv

theorem buildBodyAux_mem (fuel : Nat) (spec : OpenAPISpec) (opId : String)
    (required : List String) :
    ∀ (props : List (String × Schema)) (acc res : BodyAcc),
      buildBodyPropsAux fuel spec opId required props acc = some (Except.ok res) →
      (∀ k, k ∈ keys acc.shape ↔ k ∈ acc.bodyParams) →
      ∀ k, k ∈ keys res.shape ↔ k ∈ res.bodyParams := by
  intro props
  induction props with
  | nil =>
    intro acc res h hinv
    simp only [buildBodyPropsAux, Option.some.injEq, Except.ok.injEq] at h
    exact h ▸ hinv
  | cons pr rest ih =>
    intro acc res h hinv
    obtain ⟨propName, propSchema⟩ := pr
    by_cases hbin : propSchema.type = some "string" ∧ propSchema.format = some "binary"
    · simp only [buildBodyPropsAux, hbin, if_pos, and_self] at h
      simp [hbin.1, hbin.2] at h
    · rw [show buildBodyPropsAux fuel spec opId required
            ((propName, propSchema) :: rest) acc =
          (match schemaToZod fuel propSchema (opId ++ ".requestBody." ++ propName)
              spec 1 [] with
           | Option.none => Option.none
           | some (Except.error e) => some (Except.error e)
           | some (Except.ok z) =>
             buildBodyPropsAux fuel spec opId required rest
               ⟨setKey acc.shape propName
                  (if required.contains propName then z else Zod.optional z),
                addSet acc.bodyParams propName⟩) from by
        simp [buildBodyPropsAux, hbin]] at h
      cases hz : schemaToZod fuel propSchema (opId ++ ".requestBody." ++ propName)
          spec 1 [] with
      | none => rw [hz] at h; cases h
      | some r =>
        cases r with
        | error e => rw [hz] at h; cases h
        | ok z =>
          rw [hz] at h
          refine ih _ res h ?_
          intro k
          simp only [keys_setKey, mem_addSet, hinv k]

theorem buildRequestBodySchema_mem (fuel : Nat) (operation : Operation)
    (opId : String) (spec : OpenAPISpec) (res : BodyAcc)
    (h : buildRequestBodySchema fuel operation opId spec = some (Except.ok res)) :
    ∀ k, k ∈ keys res.shape ↔ k ∈ res.bodyParams := by
  unfold buildRequestBodySchema at h
  cases hrb : operation.requestBody with
  | none =>
    rw [hrb] at h
    simp only [Option.some.injEq, Except.ok.injEq] at h
    subst h; intro k; simp [keys]
  | some rb =>
    rw [hrb] at h
    dsimp only at h
    cases hct : rb.content with
    | none =>
      rw [hct] at h
      dsimp only at h
      simp only [Option.some.injEq, Except.ok.injEq] at h
      subst h; intro k; simp [keys]
    | some content =>
      rw [hct] at h
      dsimp only at h
      cases hjc : lookup content "application/json" with
      | none =>
        rw [hjc] at h
        dsimp only at h
        simp only [Option.some.injEq, Except.ok.injEq] at h
        subst h; intro k; simp [keys]
      | some jsonContent =>
        rw [hjc] at h
        dsimp only at h
        cases hsc : jsonContent.schema with
        | none =>
          rw [hsc] at h
          dsimp only at h
          simp only [Option.some.injEq, Except.ok.injEq] at h
          subst h; intro k; simp [keys]
        | some schema =>
          rw [hsc] at h
          dsimp only at h
          by_cases hbin : schema.type = some "string" ∧ schema.format = some "binary"
          · rw [if_pos hbin] at h
            cases h
          · rw [if_neg hbin] at h
            cases hrr : (match schema.ref with
                | some r => resolveRef fuel r spec []
                | Option.none => some (Except.ok schema)) with
            | none => rw [hrr] at h; exact absurd h (by dsimp only; simp)
            | some r =>
              cases r with
              | error e => rw [hrr] at h; exact absurd h (by dsimp only; simp)
              | ok resolvedSchema =>
                rw [hrr] at h
                dsimp only at h
                by_cases hobj : resolvedSchema.type = some "object" ∨
                    resolvedSchema.properties.isSome = true
                · rw [if_pos hobj] at h
                  exact buildBodyAux_mem fuel spec opId
                    (resolvedSchema.required.getD [])
                    (resolvedSchema.properties.getD []) ⟨[], []⟩ res h
                    (by intro k; simp [keys])
                · rw [if_neg hobj] at h
                  simp only [Option.some.injEq, Except.ok.injEq] at h
                  subst h; intro k; simp [keys]

theorem keys_foldl_setKey {α : Type} :
    ∀ (l2 l1 : List (String × α)) (k : String),
      k ∈ keys (l2.foldl (fun acc kv => setKey acc kv.1 kv.2) l1) ↔
        k ∈ keys l1 ∨ k ∈ keys l2 := by
  intro l2
  induction l2 with
  | nil => intro l1 k; simp [keys]
  | cons kv l2 ih =>
    intro l1 k
    rw [List.foldl_cons, ih (setKey l1 kv.1 kv.2) k, keys_setKey]
    simp only [keys, List.map_cons, List.mem_cons]
    simp only [keys] at *
    tauto

theorem parseOneOperation_inv (fuel : Nat) (spec : OpenAPISpec) (path : String)
    (pathParameters : List Parameter) (method : HttpMethod)
    (operation : Operation) (tool : ToolDefinition)
    (h : parseOneOperation fuel spec path pathParameters method operation =
      some (Except.ok tool)) :
    ∃ m, tool.parameterMetadata = some m ∧
      ∀ k, k ∈ keys tool.parameters ↔
        (k ∈ m.pathParams ∨ k ∈ m.queryParams ∨ k ∈ m.bodyParams) := by
  unfold parseOneOperation at h
  dsimp only at h
  cases hbp : buildParametersSchema fuel
      (pathParameters ++ operation.parameters.getD [])
      (generateToolName operation method path) spec with
  | none => rw [hbp] at h; exact absurd h (by dsimp only; simp)
  | some rp =>
    cases rp with
    | error e => rw [hbp] at h; exact absurd h (by dsimp only; simp)
    | ok parametersResult =>
      rw [hbp] at h
      dsimp only at h
      cases hbb : buildRequestBodySchema fuel operation
          (generateToolName operation method path) spec with
      | none => rw [hbb] at h; exact absurd h (by dsimp only; simp)
      | some rb =>
        cases rb with
        | error e => rw [hbb] at h; exact absurd h (by dsimp only; simp)
        | ok bodyResult =>
          rw [hbb] at h
          dsimp only at h
          cases hac : extractOperationAuthConfig spec operation with
          | error e => rw [hac] at h; exact absurd h (by dsimp only; simp)
          | ok authConfig =>
            rw [hac] at h
            dsimp only at h
            simp only [Option.some.injEq, Except.ok.injEq] at h
            subst h
            refine ⟨_, rfl, ?_⟩
            intro k
            rw [keys_foldl_setKey bodyResult.shape parametersResult.shape k]
            have h1 := buildParamsAux_mem fuel spec
              (generateToolName operation method path)
              (pathParameters ++ operation.parameters.getD []) ⟨[], [], []⟩
              parametersResult hbp (by intro k'; simp [keys]) k
            have h2 := buildRequestBodySchema_mem fuel operation
              (generateToolName operation method path) spec bodyResult hbb k
            rw [h1, h2]
            tauto

theorem parseMethods_inv (fuel : Nat) (spec : OpenAPISpec) (path : String)
    (item : PathItem) (pathParameters : List Parameter) :
    ∀ (ms : List HttpMethod) (ts : List ToolDefinition),
      parseMethods fuel spec path item pathParameters ms = some (Except.ok ts) →
      ∀ t ∈ ts, ∃ m, t.parameterMetadata = some m ∧
        ∀ k, k ∈ keys t.parameters ↔
          (k ∈ m.pathParams ∨ k ∈ m.queryParams ∨ k ∈ m.bodyParams) := by
  intro ms
  induction ms with
  | nil =>
    intro ts h t ht
    simp only [parseMethods, Option.some.injEq, Except.ok.injEq] at h
    subst h
    cases ht
  | cons method rest ih =>
    intro ts h t ht
    unfold parseMethods at h
    cases hop : item.operationFor method with
    | none =>
      rw [hop] at h
      exact ih ts h t ht
    | some operation =>
      rw [hop] at h
      dsimp only at h
      cases hone : parseOneOperation fuel spec path pathParameters method operation with
      | none => rw [hone] at h; exact absurd h (by dsimp only; simp)
      | some r =>
        cases r with
        | error e => rw [hone] at h; exact absurd h (by dsimp only; simp)
        | ok tool =>
          rw [hone] at h
          dsimp only at h
          cases hrest : parseMethods fuel spec path item pathParameters rest with
          | none => rw [hrest] at h; exact absurd h (by dsimp only; simp)
          | some rr =>
            cases rr with
            | error e => rw [hrest] at h; exact absurd h (by dsimp only; simp)
            | ok tools =>
              rw [hrest] at h
              dsimp only at h
              simp only [Option.some.injEq, Except.ok.injEq] at h
              subst h
              rcases List.mem_cons.mp ht with ht | ht
              · subst ht
                exact parseOneOperation_inv fuel spec path pathParameters method
                  operation t hone
              · exact ih tools hrest t ht

theorem parsePaths_inv (fuel : Nat) (spec : OpenAPISpec) :
    ∀ (paths : List (String × PathItem)) (ts : List ToolDefinition),
      parsePaths fuel spec paths = some (Except.ok ts) →
      ∀ t ∈ ts, ∃ m, t.parameterMetadata = some m ∧
        ∀ k, k ∈ keys t.parameters ↔
          (k ∈ m.pathParams ∨ k ∈ m.queryParams ∨ k ∈ m.bodyParams) := by
  intro paths
  induction paths with
  | nil =>
    intro ts h t ht
    simp only [parsePaths, Option.some.injEq, Except.ok.injEq] at h
    subst h
    cases ht
  | cons entry rest ih =>
    intro ts h t ht
    obtain ⟨path, item⟩ := entry
    unfold parsePaths at h
    cases hm : parseMethods fuel spec path item (item.parameters.getD []) HTTP_METHODS with
    | none => rw [hm] at h; exact absurd h (by dsimp only; simp)
    | some r =>
      cases r with
      | error e => rw [hm] at h; exact absurd h (by dsimp only; simp)
      | ok tools =>
        rw [hm] at h
        dsimp only at h
        cases hrest : parsePaths fuel spec rest with
        | none => rw [hrest] at h; exact absurd h (by dsimp only; simp)
        | some rr =>
          cases rr with
          | error e => rw [hrest] at h; exact absurd h (by dsimp only; simp)
          | ok more =>
            rw [hrest] at h
            dsimp only at h
            simp only [Option.some.injEq, Except.ok.injEq] at h
            subst h
            rcases List.mem_append.mp ht with ht | ht
            · exact parseMethods_inv fuel spec path item (item.parameters.getD [])
                HTTP_METHODS tools hm t ht
            · exact ih more hrest t ht

/-- C1 (amended): for every tool `parseOperations` produces, the union of
the three placement-metadata sets equals the field set of the tool's
parameter validator.  (Pairwise disjointness of the three sets — the other
half of the original claim — fails; see the counterexample below.) -/
theorem parseOperations_union_eq_validator_fields (fuel : Nat)
    (spec : OpenAPISpec) (ts : List ToolDefinition)
    (h : parseOperations fuel spec = some (Except.ok ts))
    (t : ToolDefinition) (ht : t ∈ ts) :
    ∃ m, t.parameterMetadata = some m ∧
      ∀ k, k ∈ keys t.parameters ↔
        (k ∈ m.pathParams ∨ k ∈ m.queryParams ∨ k ∈ m.bodyParams) :=
  parsePaths_inv fuel spec spec.paths ts h t ht

/-- C1 counterexample: a document declaring the same name `id` as both a
path parameter and a query parameter yields a tool whose `pathParams` and
`queryParams` metadata sets both contain `id` — the placement sets are not
pairwise disjoint. -/
theorem parseOperations_placement_not_disjoint_cex :
    ∃ ts t m, parseOperations 5 c1spec = some (Except.ok ts) ∧ t ∈ ts ∧
      t.parameterMetadata = some m ∧
      "id" ∈ m.pathParams ∧ "id" ∈ m.queryParams :=
  ⟨[c1tool], c1tool, ⟨["id"], ["id"], []⟩, rfl, by simp, rfl, by simp, by simp⟩

theorem parseOperations_union_eq_validator_fields_witness :
    ∃ m, c1tool.parameterMetadata = some m ∧
      ∀ k, k ∈ keys c1tool.parameters ↔
        (k ∈ m.pathParams ∨ k ∈ m.queryParams ∨ k ∈ m.bodyParams) :=
  parseOperations_union_eq_validator_fields 5 c1spec [c1tool] rfl c1tool
    (by simp)
